import Mathlib

/-!
Shallow embedding of the scroll/stage controller of `AxonStack.tsx`
(the `LocalZScroller` component and its navigation API).

Conventions of the model:
* JavaScript numbers are modelled as `ℚ` (the controller only performs
  field arithmetic, comparisons, `min`/`max`, `abs`, `sign` and `floor`;
  the single transcendental value `1 - exp(-dt/τ)` of the motion
  integrator is carried as an explicit frame parameter `alpha`, which
  lies in `(0,1)` for every `dt > 0`).
* Item indices are `ℤ` (the code stores unclamped integers in refs).
* The mutable refs of the component become fields of `ScrollerState`.
* DOM effects (writing `el.scrollTop`, observer callbacks) are not state:
  a `centerOn`-style operation returns the normalized scroll fraction it
  writes, and each frame receives the raw scroll reading as an input.
* A "frame" is one run of the `useFrame` callback; the Centered Index a
  frame acts upon is the value of `centerIndexRef` when the stage
  controller checks it, i.e. the value resolved by the previous frame
  (center resolution is step 5 of the callback, after those checks).
-/

namespace AxonStack

/- The rational-arithmetic primitives are sealed `@[irreducible]` upstream;
reopening them lets concrete witness states evaluate by `decide`. -/
set_option allowUnsafeReducibility true in
attribute [semireducible] Rat.mul Rat.add Rat.sub Rat.div Rat.neg Rat.inv Rat.floor

/-- `THREE.MathUtils.clamp(value, min, max) = Math.max(min, Math.min(max, value))`. -/
def qclamp (v lo hi : ℚ) : ℚ := max lo (min hi v)

/-- `Math.sign` on rationals. -/
def qsign (x : ℚ) : ℚ := if 0 < x then 1 else if x < 0 then -1 else 0

/-- `THREE.MathUtils.lerp(x, y, t) = x + (y - x) * t`. -/
def qlerp (x y t : ℚ) : ℚ := x + (y - x) * t

/-- `const STAGE_GAP_WHEN_EXPANDED = 10` (src line 42). -/
def STAGE_GAP_WHEN_EXPANDED : ℚ := 10

/-- `const RANGE_EXIT_HYST = 0` (src line 1274). -/
def RANGE_EXIT_HYST : ℤ := 0

/-- The constructor props of `LocalZScroller` that the controller reads
(src lines 1235–1269), plus the mobile/desktop tuning constant
`CARD_MAX_SPD` from `useMotionTuning` (src lines 2116–2131).
`winStart`/`winEnd` are the props called `start`/`end` in the source.
`CARD_FAR_THOLD` is `2.3` in both tuning profiles and is inlined below. -/
structure ScrollerCfg where
  planes : ℕ
  gap : ℚ
  winStart : ℚ
  winEnd : ℚ
  snapEndThreshold : ℚ
  maxSpd : ℚ
  groupRanges : List (ℤ × ℤ)
  deriving Repr, DecidableEq

/-- The per-frame inputs read from outside the controller state:
the raw scroll offset `scroll.offset`, the physical scroll metrics of the
DOM container, the frame time `dt`, and the integrator ease factor
`alpha = 1 - exp(-dt / max(1e-4, TAU))` (src line 1747), carried as a
parameter because `exp` is transcendental; it lies in `(0,1)` for `dt > 0`. -/
structure FrameInput where
  raw : ℚ
  scrollTop : ℚ
  scrollH : ℚ
  clientH : ℚ
  dt : ℚ
  alpha : ℚ
  deriving Repr, DecidableEq

/-- The pending “stage-after-arrive” record for ranges (src lines 1337–1343). -/
structure PendingRange where
  rstart : ℤ
  rend : ℤ
  gapAbs : ℚ
  triggerAt : ℤ
  follow : Bool
  deriving Repr, DecidableEq

/-- The mutable refs of `LocalZScroller` (src lines 1270–1365) that carry
the controller state.  `prevCenter` models the `(centerIndexRef as any).prev`
property (absent on the first frame, hence an `Option`). -/
structure ScrollerState where
  zSmoothed : ℚ
  centerIndex : ℤ
  prevCenter : Option ℤ
  stagedIndex : Option ℤ
  stageGap : ℚ
  stagedRangeStart : Option ℤ
  stagedRangeEnd : Option ℤ
  stagedRangeSpan : ℤ
  followRange : Bool
  groupGapsActive : Bool
  focusGroup : ℤ
  pendingStageIndex : Option ℤ
  pendingStageGap : ℚ
  pendingStageRange : Option PendingRange
  navLock : ℕ
  expandedIndex : Option ℤ
  prevStageGap : ℚ
  prevGroupGapsActive : Bool
  prevStagedIndex : Option ℤ
  prevRangeStart : Option ℤ
  prevRangeEnd : Option ℤ
  expandedSwitchLock : ℕ
  deriving Repr, DecidableEq

/-- The `groupIndexMap` array (src lines 1345–1352): `map[i] = gi` for every
range `[s,e]` (index `gi`) containing `i` with `i < planes` (later ranges
overwrite earlier ones), `-1` elsewhere. -/
def groupIdxOf (cfg : ScrollerCfg) (i : ℤ) : ℤ :=
  if 0 ≤ i ∧ i < (cfg.planes : ℤ) then
    cfg.groupRanges.enum.foldl
      (fun acc p => if p.2.1 ≤ i ∧ i ≤ p.2.2 then (p.1 : ℤ) else acc) (-1)
  else -1

/-- `stageOffsetForIndex` (src lines 1304–1316): the AllGroups depth offset
of item `i`; `0` unless group gaps are active with a positive stage gap. -/
def stageOffsetForIndex (cfg : ScrollerCfg) (s : ScrollerState) (i : ℤ) : ℚ :=
  if s.groupGapsActive ∧ 0 < s.stageGap then
    let gi := groupIdxOf cfg i
    if gi < 0 then 0
    else ((gi - s.focusGroup : ℤ) : ℚ) * max 0 (s.stageGap - cfg.gap)
  else 0

/-- The depth of item `i`: `-(i * gap + stageOffsetForIndex i)`.  The same
formula appears in `centerOn` (src 1375), `getZSpan` (src 1327–1328) and as
`zOfIndex` inside the frame callback (src 1841–1852). -/
def zOfIndex (cfg : ScrollerCfg) (s : ScrollerState) (i : ℤ) : ℚ :=
  -((i : ℚ) * cfg.gap + stageOffsetForIndex cfg s i)

/-- `getZSpan` (src lines 1319–1334): depth of item `0` and of item
`max 0 (planes - 1)` with the offsets active right now. -/
def getZSpan (cfg : ScrollerCfg) (s : ScrollerState) : ℚ × ℚ :=
  let maxIdx : ℤ := max 0 ((cfg.planes : ℤ) - 1)
  (zOfIndex cfg s 0, zOfIndex cfg s maxIdx)

/-- `clampIndex` of the navigation API (src lines 1584–1585). -/
def clampIndex (cfg : ScrollerCfg) (i : ℤ) : ℤ :=
  max 0 (min ((cfg.planes : ℤ) - 1) i)

/-- `stageAt` (src lines 1407–1410): sets the staged single index (without
clamping it) and floors the gap at `0`.  It touches no other staging field. -/
def stageAt (s : ScrollerState) (index : ℤ) (gapAbs : ℚ) : ScrollerState :=
  { s with stagedIndex := some index, stageGap := max 0 gapAbs }

/-- `stageRangeAt` (src lines 1390–1405): clears single-index staging,
clamps and orders the range, floors the gap at `0`, records `follow`. -/
def stageRangeAt (cfg : ScrollerCfg) (s : ScrollerState)
    (rstart rend : ℤ) (gapAbs : ℚ) (follow : Bool) : ScrollerState :=
  let maxIdx : ℤ := (cfg.planes : ℤ) - 1
  let sS := max 0 (min maxIdx (min rstart rend))
  let sE := max 0 (min maxIdx (max rstart rend))
  { s with stagedIndex := none,
           stagedRangeStart := some sS,
           stagedRangeEnd := some sE,
           stagedRangeSpan := sE - sS,
           stageGap := max 0 gapAbs,
           followRange := follow }

/-- `clearStage` (src lines 1412–1439): clears single/range staging, turns
off group gaps and zeroes the gap; if group gaps were active it snaps the
integrator to the gapless depth of the kept index and sets a 2-frame
navigation lock.  (The `centerOn(keepIndex)` DOM write is external.) -/
def clearStage (cfg : ScrollerCfg) (s : ScrollerState) : ScrollerState :=
  let keepIndex := s.centerIndex
  let wasGroupGaps := s.groupGapsActive
  let s1 := { s with stagedIndex := none,
                     stagedRangeStart := none,
                     stagedRangeEnd := none,
                     stagedRangeSpan := 0,
                     groupGapsActive := false,
                     stageGap := 0 }
  if wasGroupGaps then
    { s1 with zSmoothed := -((keepIndex : ℚ) * cfg.gap), navLock := 2 }
  else s1

/-- `centerOn` (src lines 1368–1388): the normalized scroll fraction
written to the DOM for a (re-clamped) index, computed with the offsets
active right now.  (For `planes = 1` the source divides by a zero span,
producing NaN in JS; in `ℚ` division by zero yields `0`.  The theorems
below only use `planes ≥ 2`.) -/
def centerOnScroll (cfg : ScrollerCfg) (s : ScrollerState) (index : ℤ) : ℚ :=
  let i := max 0 (min ((cfg.planes : ℤ) - 1) index)
  let targetZ := -((i : ℚ) * cfg.gap + stageOffsetForIndex cfg s i)
  let span := getZSpan cfg s
  let pLocal := qclamp ((targetZ - span.1) / (span.2 - span.1)) 0 1
  qclamp (cfg.winStart + pLocal * (cfg.winEnd - cfg.winStart)) 0 1

/-- `goTo` of the navigation API (src lines 1588–1590): clamps the index
and centers on it; the state is untouched, only a scroll write happens. -/
def goTo (cfg : ScrollerCfg) (s : ScrollerState) (index : ℤ) : ℚ :=
  centerOnScroll cfg s (clampIndex cfg index)

/-- `goToAndStage` (src lines 1591–1596): records a pending single stage
for the clamped index and centers on it; returns the new state and the
scroll fraction written. -/
def goToAndStage (cfg : ScrollerCfg) (s : ScrollerState)
    (index : ℤ) (gapAbs : ℚ) : ScrollerState × ℚ :=
  let i := clampIndex cfg index
  let s' := { s with pendingStageIndex := some i, pendingStageGap := max 0 gapAbs }
  (s', centerOnScroll cfg s' i)

/-- `-1`-valued `Array.prototype.findIndex` over the group ranges. -/
def findIdxZ (l : List (ℤ × ℤ)) (p : ℤ × ℤ → Bool) : ℤ :=
  match l.findIdx? p with
  | some n => (n : ℤ)
  | none => -1

/-- `goToRangeAndStage` (src lines 1597–1625) — the operation the spec
calls `stageAllGroups`: clears all staging, resolves the focus group id
(exact range match first, else the group containing the clamped start,
else `0`), opens the group gaps, centers on the start with the gaps open
and sets a 2-frame navigation lock. -/
def goToRangeAndStage (cfg : ScrollerCfg) (s : ScrollerState)
    (rstart rend : ℤ) (gapAbs : ℚ) : ScrollerState × ℚ :=
  let s1 := clearStage cfg s
  let maxIdx : ℤ := (cfg.planes : ℤ) - 1
  let sS := max 0 (min maxIdx (min rstart rend))
  let sE := max 0 (min maxIdx (max rstart rend))
  let gidExact := findIdxZ cfg.groupRanges (fun r => r.1 == sS && r.2 == sE)
  let gid := if gidExact < 0
    then max 0 (findIdxZ cfg.groupRanges (fun r => r.1 ≤ sS && sS ≤ r.2))
    else gidExact
  let s2 := { s1 with groupGapsActive := true,
                      stageGap := max 0 gapAbs,
                      focusGroup := gid,
                      navLock := 2 }
  (s2, centerOnScroll cfg s2 sS)

/-- `goToGroupAndStage` (src lines 1626–1642): clears staging, records a
pending fixed (non-follow) range triggered at its clamped start, centers
on that start and sets a 2-frame navigation lock. -/
def goToGroupAndStage (cfg : ScrollerCfg) (s : ScrollerState)
    (rstart rend : ℤ) (gapAbs : ℚ) : ScrollerState × ℚ :=
  let s1 := clearStage cfg s
  let sS := clampIndex cfg (min rstart rend)
  let sE := clampIndex cfg (max rstart rend)
  let s2 := { s1 with
    pendingStageRange := some ⟨sS, sE, max 0 gapAbs, sS, false⟩,
    navLock := 2 }
  (s2, centerOnScroll cfg s2 sS)

/-- `setExpandedIndex` (src lines 1443–1519).  On the Collapsed→Expanded
rising edge the current stage mode is snapshotted into the `prev*` fields
and the gap is overwritten with `STAGE_GAP_WHEN_EXPANDED`; switching the
expanded item touches nothing else; on the falling edge the snapshot is
restored (group gaps first, else single/range, else cleared), pending
stage requests are cleared and a 2-frame navigation lock is set.
(The `onExpandedChange` callback and `centerOn(keepIndex)` DOM write are
external to the state.) -/
def setExpandedIndex (s : ScrollerState) (idx : Option ℤ) : ScrollerState :=
  let wasExpanded := s.expandedIndex ≠ none
  let s := { s with expandedIndex := idx }
  if idx ≠ none then
    if wasExpanded then s
    else
      { s with prevStageGap := s.stageGap,
               prevGroupGapsActive := s.groupGapsActive,
               prevStagedIndex := s.stagedIndex,
               prevRangeStart := s.stagedRangeStart,
               prevRangeEnd := s.stagedRangeEnd,
               stageGap := STAGE_GAP_WHEN_EXPANDED }
  else
    if wasExpanded then
      let hadGroupGapsBefore := s.prevGroupGapsActive
      let hadSingleBefore := s.prevStagedIndex.isSome
      let hadRangeBefore := s.prevRangeStart.isSome && s.prevRangeEnd.isSome
      let s' :=
        if hadGroupGapsBefore then
          { s with groupGapsActive := true,
                   stageGap := s.prevStageGap,
                   stagedIndex := none,
                   stagedRangeStart := none,
                   stagedRangeEnd := none,
                   stagedRangeSpan := 0 }
        else if hadSingleBefore || hadRangeBefore then
          { s with groupGapsActive := false,
                   stageGap := s.prevStageGap,
                   stagedIndex := if hadSingleBefore then s.prevStagedIndex else none,
                   stagedRangeStart := if hadRangeBefore then s.prevRangeStart else none,
                   stagedRangeEnd := if hadRangeBefore then s.prevRangeEnd else none,
                   stagedRangeSpan :=
                     if hadRangeBefore
                     then s.prevRangeEnd.getD 0 - s.prevRangeStart.getD 0
                     else 0 }
        else
          { s with groupGapsActive := false,
                   stagedIndex := none,
                   stagedRangeStart := none,
                   stagedRangeEnd := none,
                   stagedRangeSpan := 0,
                   stageGap := 0 }
      { s' with pendingStageIndex := none,
                pendingStageRange := none,
                navLock := 2 }
    else s

/-! ### The per-frame update (`useFrame`, src lines 1702–1887)

The callback is modelled as a composition of phases in source order:
progress normalization → target depth → hybrid motion integrator →
pending-single check → follow-range update → fixed-range auto-collapse →
pending-range / duplicated pending-single check → center resolution →
lock countdowns and staged-index tracking.  The auto-scroll block (src
1808–1819) only writes `el.scrollTop` and is external to the state; the
`onCenterChange` observer (src 1875–1878) fires on transitions only and
carries no state. -/

/-- Progress normalization (src lines 1703–1724): clamp the raw offset
into the `[winStart, winEnd]` window with an `1e-6` floor on the window
width, force `0`/`1` within 1px of the physical scroll ends, then apply
the `snapEndThreshold` snap. -/
def computeProgress (cfg : ScrollerCfg) (raw scrollTop scrollH clientH : ℚ) : ℚ :=
  let p0 := qclamp ((raw - cfg.winStart) / max (1/1000000) (cfg.winEnd - cfg.winStart)) 0 1
  let maxS := max 0 (scrollH - clientH)
  let p1 := if scrollTop ≤ 1 then 0 else p0
  let p2 := if |scrollTop - maxS| ≤ 1 then 1 else p1
  let snap := cfg.snapEndThreshold
  if snap < p2 then 1 else if p2 < 1 - snap then 0 else p2

/-- The hybrid motion integrator (src lines 1731–1755): constant-speed
catch-up beyond `2.3` gaps, exponential ease (`alpha = 1 - exp(-dt/τ)`)
inside, and an epsilon snap onto the target. -/
def integrate (g maxSpd dt alpha zTarget z : ℚ) : ℚ :=
  let farThreshold := g * (23/10)
  let maxStep := g * maxSpd * dt
  let delta := zTarget - z
  let z' :=
    if farThreshold < |delta| then
      let step := qsign delta * maxStep
      if |step| < |delta| then z + step else z + delta
    else z + delta * alpha
  let eps := max (1/10000) (g * (1/10000))
  if |zTarget - z'| < eps then zTarget else z'

/-- The target depth of a frame (src lines 1726–1729): map the normalized
progress onto the current z-span. -/
def zTargetOf (cfg : ScrollerCfg) (fin : FrameInput) (s : ScrollerState) : ℚ :=
  let p := computeProgress cfg fin.raw fin.scrollTop fin.scrollH fin.clientH
  let span := getZSpan cfg s
  qlerp span.1 span.2 p

/-- Frame phase 3: advance the smoothed depth (src lines 1731–1757). -/
def integratePhase (cfg : ScrollerCfg) (fin : FrameInput) (s : ScrollerState) : ScrollerState :=
  { s with zSmoothed :=
      integrate cfg.gap cfg.maxSpd fin.dt fin.alpha (zTargetOf cfg fin s) s.zSmoothed }

/-- Stage-after-arrive for a single index (src lines 1761–1768, repeated
at 1828–1834): `pendingStageIndexRef.current !== null && centerIndexRef.current
=== pendingStageIndexRef.current` is exactly `pendingStageIndex = some centerIndex`;
then `stageAt` is applied at the center and the request cleared. -/
def applyPendingSingle (s : ScrollerState) : ScrollerState :=
  if s.pendingStageIndex = some s.centerIndex then
    { stageAt s s.centerIndex s.pendingStageGap with pendingStageIndex := none }
  else s

/-- Follow-range update (src lines 1770–1788): re-center a `follow` range
of fixed span around the centered index, clamped to the index bounds.
(The guard reads only null-ness of the range refs; the body reads only the
span and the center.) -/
def applyFollowRange (cfg : ScrollerCfg) (s : ScrollerState) : ScrollerState :=
  if s.followRange = true ∧ s.stagedRangeStart ≠ none ∧ s.stagedRangeEnd ≠ none ∧
      0 < s.stageGap then
    let span := s.stagedRangeSpan
    let center := s.centerIndex
    let maxIdx := (cfg.planes : ℤ) - 1
    let maxStart := max 0 (maxIdx - span)
    let startFollow := max 0 (min maxStart (Int.floor ((center : ℚ) - (span : ℚ) / 2)))
    { s with stagedRangeStart := some startFollow,
             stagedRangeEnd := some (startFollow + span) }
  else s

/-- Fixed-range auto-collapse (src lines 1790–1806): if a non-follow
range is staged with a positive gap and the centered index is outside
`[start - RANGE_EXIT_HYST, end + RANGE_EXIT_HYST]`, clear the stage and
set a 2-frame navigation lock.  (The `getD 0` reads are guarded by the
null checks of the same condition.) -/
def applyAutoCollapse (cfg : ScrollerCfg) (s : ScrollerState) : ScrollerState :=
  if s.followRange = false ∧ s.stagedRangeStart ≠ none ∧ s.stagedRangeEnd ≠ none ∧
      0 < s.stageGap then
    let sS := s.stagedRangeStart.getD 0
    let sE := s.stagedRangeEnd.getD 0
    if s.centerIndex < sS - RANGE_EXIT_HYST ∨ sE + RANGE_EXIT_HYST < s.centerIndex then
      { clearStage cfg s with navLock := 2 }
    else s
  else s

/-- Stage-after-arrive for ranges, with the duplicated single check in
its `else` branch (src lines 1821–1834).  (The `getD` read is guarded by
the null check.) -/
def applyPendingRange (cfg : ScrollerCfg) (s : ScrollerState) : ScrollerState :=
  if s.pendingStageRange ≠ none then
    let pr := s.pendingStageRange.getD ⟨0, 0, 0, 0, false⟩
    if s.centerIndex = pr.triggerAt then
      { stageRangeAt cfg s pr.rstart pr.rend pr.gapAbs pr.follow with
          pendingStageRange := none }
    else s
  else applyPendingSingle s

/-- The nearest-index loop of the center resolver (src lines 1855–1860):
`nearest = 0, best = Infinity`, then for `i = 0..maxIdx` keep the first
strict improvement of `d i`.  `none` plays the role of the `Infinity`
initial best. -/
def nearestScanStep (d : ℤ → ℚ) (acc : Option (ℤ × ℚ)) (i : ℤ) : Option (ℤ × ℚ) :=
  match acc with
  | none => some (i, d i)
  | some nb => if d i < nb.2 then some (i, d i) else some nb

/-- The index produced by the nearest-index loop over `0..maxIdx`. -/
def nearestIndex (d : ℤ → ℚ) (maxIdx : ℕ) : ℤ :=
  (((List.range (maxIdx + 1)).map Int.ofNat).foldl (nearestScanStep d) none).elim 0 Prod.fst

/-- Frame phase 5, center resolution (src lines 1836–1868): while the
navigation lock is positive it is decremented and the center held;
otherwise the nearest index to the smoothed depth is found and the
previous center is kept when it is closer than `0.35 * gap` (hysteresis). -/
def resolveCenter (cfg : ScrollerCfg) (s : ScrollerState) : ScrollerState :=
  if 0 < s.navLock then { s with navLock := s.navLock - 1 }
  else
    let d := fun i : ℤ => |s.zSmoothed - zOfIndex cfg s i|
    let nearest := nearestIndex d (cfg.planes - 1)
    let prev := s.prevCenter.getD nearest
    let nearest' := if d prev < cfg.gap * (35/100) then prev else nearest
    { s with centerIndex := nearest', prevCenter := some nearest' }

/-- Frame phase 6 bookkeeping: the expanded switch-lock countdown
(src line 1880). -/
def tickLocks (s : ScrollerState) : ScrollerState :=
  if 0 < s.expandedSwitchLock
  then { s with expandedSwitchLock := s.expandedSwitchLock - 1 }
  else s

/-- Staged-index tracking (src lines 1882–1886): while a single index is
staged with a positive gap it is reassigned to the centered index. -/
def trackStagedIndex (s : ScrollerState) : ScrollerState :=
  if s.stagedIndex ≠ none ∧ 0 < s.stageGap then
    if s.stagedIndex ≠ some s.centerIndex
    then { s with stagedIndex := some s.centerIndex }
    else s
  else s

/-- One full frame of the `useFrame` callback (src lines 1702–1887). -/
def frameStep (cfg : ScrollerCfg) (fin : FrameInput) (s : ScrollerState) : ScrollerState :=
  trackStagedIndex (tickLocks (resolveCenter cfg (applyPendingRange cfg
    (applyAutoCollapse cfg (applyFollowRange cfg (applyPendingSingle
      (integratePhase cfg fin s)))))))

/-! ### Concrete instances for witnesses and counterexamples -/

/-- A concrete 10-item configuration with two photographer groups. -/
def cfg10 : ScrollerCfg :=
  { planes := 10, gap := 1, winStart := 0, winEnd := 1,
    snapEndThreshold := 3/2, maxSpd := 88, groupRanges := [(0, 2), (3, 9)] }

/-- The state right after mount: every ref at its `useRef` initial value
(src lines 1277–1298 and 1360–1362). -/
def initState : ScrollerState :=
  { zSmoothed := 0, centerIndex := 0, prevCenter := none,
    stagedIndex := none, stageGap := 0,
    stagedRangeStart := none, stagedRangeEnd := none, stagedRangeSpan := 0,
    followRange := false, groupGapsActive := false, focusGroup := 0,
    pendingStageIndex := none, pendingStageGap := 2, pendingStageRange := none,
    navLock := 0, expandedIndex := none,
    prevStageGap := 0, prevGroupGapsActive := false, prevStagedIndex := none,
    prevRangeStart := none, prevRangeEnd := none, expandedSwitchLock := 0 }

/-! ### C1 — Stage-mode exclusivity -/

/-- C1 (counterexample): the claim that after any staging operation at
most one Stage Mode is active fails: starting from the initial state,
`stageRangeAt 1 3` followed by `stageAt 2` leaves BOTH the staged single
index and the staged range non-null — `stageAt` (src 1407–1410) never
clears range or group staging. -/
theorem stage_exclusivity_cex :
    (stageAt (stageRangeAt cfg10 initState 1 3 2 false) 2 2).stagedIndex = some 2 ∧
    (stageAt (stageRangeAt cfg10 initState 1 3 2 false) 2 2).stagedRangeStart = some 1 ∧
    (stageAt (stageRangeAt cfg10 initState 1 3 2 false) 2 2).stagedRangeEnd = some 3 := by
  decide

/-- C1 (amended): exclusivity holds only for the AllGroups stager —
`goToRangeAndStage` clears single and range staging and leaves exactly the
group-gaps mode active.  `stageRangeAt` clears single-index staging but
leaves the group-gaps flag as it was, and `stageAt` activates single-index
staging without clearing either the staged range or the group-gaps flag. -/
theorem stage_exclusivity_amended (cfg : ScrollerCfg) (s : ScrollerState)
    (a b i : ℤ) (gA gB : ℚ) (f : Bool) :
    ((goToRangeAndStage cfg s a b gA).1.groupGapsActive = true ∧
     (goToRangeAndStage cfg s a b gA).1.stagedIndex = none ∧
     (goToRangeAndStage cfg s a b gA).1.stagedRangeStart = none ∧
     (goToRangeAndStage cfg s a b gA).1.stagedRangeEnd = none) ∧
    ((stageRangeAt cfg s a b gA f).stagedIndex = none ∧
     (stageRangeAt cfg s a b gA f).groupGapsActive = s.groupGapsActive) ∧
    ((stageAt s i gB).stagedIndex = some i ∧
     (stageAt s i gB).stagedRangeStart = s.stagedRangeStart ∧
     (stageAt s i gB).stagedRangeEnd = s.stagedRangeEnd ∧
     (stageAt s i gB).groupGapsActive = s.groupGapsActive) := by
  refine ⟨?_, ⟨rfl, rfl⟩, ⟨rfl, rfl, rfl, rfl⟩⟩
  cases hgg : s.groupGapsActive <;>
    simp [goToRangeAndStage, clearStage, hgg]

/-! ### C7 — Clamping of out-of-range arguments -/

/-- C7 (counterexample): the claim that every index argument of the
staging operations is clamped into `[0, N-1]` fails for `stageAt`
(src 1407–1410): `stageAt(-5, 2)` stores the staged index `-5`, which is
below `0`. -/
theorem clamping_cex :
    (stageAt initState (-5) 2).stagedIndex = some (-5) ∧ (-5 : ℤ) < 0 := by
  decide

/-- C7 (amended): range and navigation arguments are clamped into
`[0, N-1]` and inverted ranges are normalized by min/max — `stageRangeAt`
stores an ordered in-bounds range, `goTo`/`goToAndStage` clamp through
`clampIndex`, and `goToGroupAndStage` records a clamped ordered pending
range — but `stageAt` stores its index argument unclamped (only the gap
is floored at `0`).  No operation rejects its input (all are total). -/
theorem clamping_amended (cfg : ScrollerCfg) (s : ScrollerState)
    (a b i : ℤ) (q : ℚ) (f : Bool) (hp : 1 ≤ cfg.planes) :
    (∃ x y, (stageRangeAt cfg s a b q f).stagedRangeStart = some x ∧
            (stageRangeAt cfg s a b q f).stagedRangeEnd = some y ∧
            0 ≤ x ∧ x ≤ y ∧ y ≤ (cfg.planes : ℤ) - 1) ∧
    (0 ≤ clampIndex cfg i ∧ clampIndex cfg i ≤ (cfg.planes : ℤ) - 1) ∧
    ((goToAndStage cfg s i q).1.pendingStageIndex = some (clampIndex cfg i)) ∧
    (∃ pr, (goToGroupAndStage cfg s a b q).1.pendingStageRange = some pr ∧
           0 ≤ pr.rstart ∧ pr.rstart ≤ pr.rend ∧ pr.rend ≤ (cfg.planes : ℤ) - 1 ∧
           pr.follow = false) ∧
    ((stageAt s i q).stagedIndex = some i ∧ (stageAt s i q).stageGap = max 0 q) := by
  have hp' : (1 : ℤ) ≤ (cfg.planes : ℤ) := by exact_mod_cast hp
  have h0 : (0 : ℤ) ≤ (cfg.planes : ℤ) - 1 := by omega
  refine ⟨?_, ?_, rfl, ?_, rfl, rfl⟩
  · refine ⟨_, _, rfl, rfl, le_max_left _ _, ?_, ?_⟩
    · have : min a b ≤ max a b := min_le_max
      simp only [le_max_iff, max_le_iff, min_le_iff]
      omega
    · simp only [max_le_iff]
      exact ⟨h0, inf_le_left⟩
  · exact ⟨le_max_left _ _, by simp only [clampIndex, max_le_iff]; exact ⟨h0, inf_le_left⟩⟩
  · refine ⟨_, rfl, le_max_left _ _, ?_, ?_, rfl⟩
    · have : min a b ≤ max a b := min_le_max
      simp only [clampIndex, le_max_iff, max_le_iff, min_le_iff]
      omega
    · simp only [clampIndex, max_le_iff]
      exact ⟨h0, inf_le_left⟩

/-- C7 (witness): the amended clamping theorem at the concrete
configuration `cfg10` with an inverted, wildly out-of-range range. -/
theorem clamping_amended_witness :
    1 ≤ cfg10.planes ∧
    ((∃ x y, (stageRangeAt cfg10 initState 12 (-3) 2 false).stagedRangeStart = some x ∧
            (stageRangeAt cfg10 initState 12 (-3) 2 false).stagedRangeEnd = some y ∧
            0 ≤ x ∧ x ≤ y ∧ y ≤ (cfg10.planes : ℤ) - 1) ∧
    (0 ≤ clampIndex cfg10 15 ∧ clampIndex cfg10 15 ≤ (cfg10.planes : ℤ) - 1) ∧
    ((goToAndStage cfg10 initState 15 2).1.pendingStageIndex = some (clampIndex cfg10 15)) ∧
    (∃ pr, (goToGroupAndStage cfg10 initState 12 (-3) 2).1.pendingStageRange = some pr ∧
           0 ≤ pr.rstart ∧ pr.rstart ≤ pr.rend ∧ pr.rend ≤ (cfg10.planes : ℤ) - 1 ∧
           pr.follow = false) ∧
    ((stageAt initState 15 2).stagedIndex = some 15 ∧
     (stageAt initState 15 2).stageGap = max 0 2)) :=
  ⟨by decide, clamping_amended cfg10 initState 12 (-3) 15 2 false (by decide)⟩

/-! ### C10 — Staged single index follows the Centered Index -/

/-- C10: at the end of every frame, if single-index staging is active
with a positive gap then the staged index equals the Centered Index —
the staged-index tracking block (src 1882–1886) runs after center
resolution and reassigns it. -/
theorem staged_index_follows_center (cfg : ScrollerCfg) (fin : FrameInput)
    (s : ScrollerState) (j : ℤ)
    (hj : (frameStep cfg fin s).stagedIndex = some j)
    (hg : 0 < (frameStep cfg fin s).stageGap) :
    j = (frameStep cfg fin s).centerIndex := by
  simp only [frameStep] at hj hg ⊢
  revert hj hg
  generalize (tickLocks (resolveCenter cfg (applyPendingRange cfg
    (applyAutoCollapse cfg (applyFollowRange cfg (applyPendingSingle
      (integratePhase cfg fin s))))))) = u
  unfold trackStagedIndex
  split_ifs with h1 h2 <;> intro hj hg
  · simpa using hj.symm
  · push_neg at h2
    rw [h2] at hj
    simpa using hj.symm
  · exact absurd ⟨by simp [hj], hg⟩ h1

/-- A concrete state with single-index staging active, for the C10 witness. -/
def stateC10 : ScrollerState := { initState with stagedIndex := some 5, stageGap := 2 }

/-- A benign frame input: scroll at rest away from the physical ends. -/
def fin0 : FrameInput :=
  { raw := 0, scrollTop := 5, scrollH := 100, clientH := 10, dt := 1/60, alpha := 1/2 }

set_option maxRecDepth 100000 in
/-- C10 (witness): one concrete frame on a state staged at index 5 with
gap 2; the frame re-centers the staged index onto the Centered Index. -/
theorem staged_index_follows_center_witness :
    (frameStep cfg10 fin0 stateC10).stagedIndex = some 0 ∧
    0 < (frameStep cfg10 fin0 stateC10).stageGap ∧
    (0 : ℤ) = (frameStep cfg10 fin0 stateC10).centerIndex :=
  ⟨by decide, by decide,
    staged_index_follows_center cfg10 fin0 stateC10 0 (by decide) (by decide)⟩

/-! ### C2 — Expansion snapshot/restore round-trip -/

/-- Entering Expanded from Collapsed (rising edge of `setExpandedIndex`,
src 1450–1462): the stage mode is snapshotted and the gap overwritten. -/
theorem setExpandedIndex_enter (s : ScrollerState) (i : ℤ)
    (h : s.expandedIndex = none) :
    setExpandedIndex s (some i) =
      { s with expandedIndex := some i,
               prevStageGap := s.stageGap,
               prevGroupGapsActive := s.groupGapsActive,
               prevStagedIndex := s.stagedIndex,
               prevRangeStart := s.stagedRangeStart,
               prevRangeEnd := s.stagedRangeEnd,
               stageGap := STAGE_GAP_WHEN_EXPANDED } := by
  simp [setExpandedIndex, h]

/-- Switching the expanded item while already expanded (src 1463): only
the expanded index changes; in particular the snapshot is untouched. -/
theorem setExpandedIndex_switch (s : ScrollerState) (j : ℤ)
    (h : s.expandedIndex ≠ none) :
    setExpandedIndex s (some j) = { s with expandedIndex := some j } := by
  simp [setExpandedIndex, h]

/-- Leaving Expanded when the snapshot says group gaps were active
(src 1467–1483 and 1510–1516): group gaps are restored with the original
gap, temporary single/range staging is cleared, pending requests are
cleared and the navigation lock is set. -/
theorem setExpandedIndex_leave_groupGaps (s : ScrollerState)
    (h : s.expandedIndex ≠ none) (hg : s.prevGroupGapsActive = true) :
    setExpandedIndex s none =
      { s with expandedIndex := none,
               groupGapsActive := true,
               stageGap := s.prevStageGap,
               stagedIndex := none,
               stagedRangeStart := none,
               stagedRangeEnd := none,
               stagedRangeSpan := 0,
               pendingStageIndex := none,
               pendingStageRange := none,
               navLock := 2 } := by
  simp [setExpandedIndex, h, hg]

/-- The Expand → switch* → Collapse call sequence on `setExpandedIndex`. -/
def expandCycle (s : ScrollerState) (i : ℤ) (js : List ℤ) : ScrollerState :=
  setExpandedIndex
    (js.foldl (fun a j => setExpandedIndex a (some j)) (setExpandedIndex s (some i))) none

/-- C2: if AllGroups mode is active (focus group `g`, stage gap `G`) with
no single/range staging and nothing expanded, then expanding any index,
switching the expanded index any number of times, and collapsing restores
the stage state exactly: AllGroups active with the same focus group and
gap, and no single or range staging — the snapshot is taken only on the
rising edge and switching does not disturb it. -/
theorem expansion_roundtrip (s : ScrollerState) (i : ℤ) (js : List ℤ)
    (hG : s.groupGapsActive = true) (_h1 : s.stagedIndex = none)
    (_h2 : s.stagedRangeStart = none) (_h3 : s.stagedRangeEnd = none)
    (h0 : s.expandedIndex = none) :
    (expandCycle s i js).groupGapsActive = true ∧
    (expandCycle s i js).focusGroup = s.focusGroup ∧
    (expandCycle s i js).stageGap = s.stageGap ∧
    (expandCycle s i js).stagedIndex = none ∧
    (expandCycle s i js).stagedRangeStart = none ∧
    (expandCycle s i js).stagedRangeEnd = none ∧
    (expandCycle s i js).expandedIndex = none := by
  have key : ∀ (l : List ℤ) (u : ScrollerState),
      u.expandedIndex ≠ none →
      (l.foldl (fun a j => setExpandedIndex a (some j)) u).expandedIndex ≠ none ∧
      (l.foldl (fun a j => setExpandedIndex a (some j)) u) =
        { u with expandedIndex :=
            (l.foldl (fun a j => setExpandedIndex a (some j)) u).expandedIndex } := by
    intro l
    induction l with
    | nil => intro u hu; exact ⟨hu, by cases u; rfl⟩
    | cons j t ih =>
      intro u hu
      simp only [List.foldl_cons]
      have hswitch := setExpandedIndex_switch u j hu
      have hu' : (setExpandedIndex u (some j)).expandedIndex ≠ none := by
        rw [hswitch]; simp
      obtain ⟨hne, heq⟩ := ih (setExpandedIndex u (some j)) hu'
      refine ⟨hne, ?_⟩
      rw [heq, hswitch]
  set u0 := setExpandedIndex s (some i) with hu0
  have henter := setExpandedIndex_enter s i h0
  have hu0ne : u0.expandedIndex ≠ none := by rw [hu0, henter]; simp
  obtain ⟨hne, heq⟩ := key js u0 hu0ne
  have hleave := setExpandedIndex_leave_groupGaps
    (js.foldl (fun a j => setExpandedIndex a (some j)) u0) hne
    (by rw [heq, hu0, henter]; simpa using hG)
  unfold expandCycle
  rw [← hu0, hleave, heq, hu0, henter]
  simp

/-- A concrete AllGroups state for the C2 witness. -/
def stateC2 : ScrollerState :=
  { initState with groupGapsActive := true, focusGroup := 1, stageGap := 5 }

/-- C2 (witness): the round-trip at a concrete AllGroups state (focus
group 1, gap 5), expanding index 3, switching to 4 then 5, collapsing. -/
theorem expansion_roundtrip_witness :
    (stateC2.groupGapsActive = true ∧ stateC2.stagedIndex = none ∧
     stateC2.stagedRangeStart = none ∧ stateC2.stagedRangeEnd = none ∧
     stateC2.expandedIndex = none) ∧
    ((expandCycle stateC2 3 [4, 5]).groupGapsActive = true ∧
     (expandCycle stateC2 3 [4, 5]).focusGroup = stateC2.focusGroup ∧
     (expandCycle stateC2 3 [4, 5]).stageGap = stateC2.stageGap ∧
     (expandCycle stateC2 3 [4, 5]).stagedIndex = none ∧
     (expandCycle stateC2 3 [4, 5]).stagedRangeStart = none ∧
     (expandCycle stateC2 3 [4, 5]).stagedRangeEnd = none ∧
     (expandCycle stateC2 3 [4, 5]).expandedIndex = none) :=
  ⟨by decide, expansion_roundtrip stateC2 3 [4, 5]
    (by decide) (by decide) (by decide) (by decide) (by decide)⟩

/-! ### C8 — Scroll Signal Adapter normalization -/

/-- C8: every frame the progress is `clamp((raw-start)/(end-start), 0, 1)`
with the window width floored by `1e-6` (always defined and in `[0,1]`,
also for a zero-width window); within 1px of the physical top
(resp. bottom) it is forced to exactly `0` (resp. `1`); and away from the
physical ends the snap threshold forces an exact `0` or `1` once the
clamped value is within the threshold's tolerance of that boundary (the
high-end snap has priority, mirroring the source's else-if). -/
theorem progress_normalization (cfg : ScrollerCfg)
    (raw scrollTop scrollH clientH : ℚ) (hsnap : 0 ≤ cfg.snapEndThreshold) :
    (0 ≤ computeProgress cfg raw scrollTop scrollH clientH ∧
     computeProgress cfg raw scrollTop scrollH clientH ≤ 1) ∧
    (scrollTop ≤ 1 → ¬(|scrollTop - max 0 (scrollH - clientH)| ≤ 1) →
       computeProgress cfg raw scrollTop scrollH clientH = 0) ∧
    (|scrollTop - max 0 (scrollH - clientH)| ≤ 1 →
       computeProgress cfg raw scrollTop scrollH clientH = 1) ∧
    (¬(scrollTop ≤ 1) → ¬(|scrollTop - max 0 (scrollH - clientH)| ≤ 1) →
       (cfg.snapEndThreshold <
          qclamp ((raw - cfg.winStart) / max (1/1000000) (cfg.winEnd - cfg.winStart)) 0 1 →
          computeProgress cfg raw scrollTop scrollH clientH = 1) ∧
       (¬(cfg.snapEndThreshold <
            qclamp ((raw - cfg.winStart) / max (1/1000000) (cfg.winEnd - cfg.winStart)) 0 1) →
          qclamp ((raw - cfg.winStart) / max (1/1000000) (cfg.winEnd - cfg.winStart)) 0 1 <
            1 - cfg.snapEndThreshold →
          computeProgress cfg raw scrollTop scrollH clientH = 0)) := by
  have hp0 : 0 ≤ qclamp ((raw - cfg.winStart) / max (1/1000000) (cfg.winEnd - cfg.winStart)) 0 1 ∧
      qclamp ((raw - cfg.winStart) / max (1/1000000) (cfg.winEnd - cfg.winStart)) 0 1 ≤ 1 :=
    ⟨le_max_left _ _, max_le (by norm_num) (min_le_left _ _)⟩
  obtain ⟨hp0l, hp0r⟩ := hp0
  have snapStage : ∀ q : ℚ, 0 ≤ q → q ≤ 1 →
      0 ≤ (if cfg.snapEndThreshold < q then (1 : ℚ)
           else if q < 1 - cfg.snapEndThreshold then 0 else q) ∧
      (if cfg.snapEndThreshold < q then (1 : ℚ)
       else if q < 1 - cfg.snapEndThreshold then 0 else q) ≤ 1 := by
    intro q h0 h1
    constructor <;> split_ifs <;> (try assumption) <;> norm_num
  unfold computeProgress
  dsimp only
  refine ⟨?_, ?_, ?_, ?_⟩
  · refine snapStage _ ?_ ?_ <;> split_ifs <;> (try assumption) <;> norm_num
  · intro hT hB
    rw [if_neg hB, if_pos hT]
    have h1 : ¬ cfg.snapEndThreshold < (0 : ℚ) := not_lt.mpr hsnap
    rw [if_neg h1]
    split_ifs with h2
    · rfl
    · rfl
  · intro hB
    rw [if_pos hB]
    split_ifs with h1 h2
    · rfl
    · linarith
    · rfl
  · intro hT hB
    rw [if_neg hB, if_neg hT]
    constructor
    · intro hgt
      rw [if_pos hgt]
    · intro h1 hlt
      rw [if_neg h1, if_pos hlt]

/-- C8 (witness): the adapter at a concrete frame away from the physical
scroll ends, with the default `snapEndThreshold = 1.5` configuration. -/
theorem progress_normalization_witness :
    (0 ≤ cfg10.snapEndThreshold) ∧
    ((0 ≤ computeProgress cfg10 (1/2) 5 100 10 ∧
       computeProgress cfg10 (1/2) 5 100 10 ≤ 1) ∧
     (¬((5:ℚ) ≤ 1) → ¬(|(5:ℚ) - max 0 (100 - 10)| ≤ 1) →
       (cfg10.snapEndThreshold <
          qclamp (((1/2) - cfg10.winStart) / max (1/1000000) (cfg10.winEnd - cfg10.winStart)) 0 1 →
          computeProgress cfg10 (1/2) 5 100 10 = 1) ∧
       (¬(cfg10.snapEndThreshold <
            qclamp (((1/2) - cfg10.winStart) / max (1/1000000) (cfg10.winEnd - cfg10.winStart)) 0 1) →
          qclamp (((1/2) - cfg10.winStart) / max (1/1000000) (cfg10.winEnd - cfg10.winStart)) 0 1 <
            1 - cfg10.snapEndThreshold →
          computeProgress cfg10 (1/2) 5 100 10 = 0))) :=
  ⟨by norm_num [cfg10],
   ⟨(progress_normalization cfg10 (1/2) 5 100 10 (by norm_num [cfg10])).1,
    (progress_normalization cfg10 (1/2) 5 100 10 (by norm_num [cfg10])).2.2.2⟩⟩

/-! ### The nearest-index loop: characterization -/

/-- Invariant of the nearest-index loop: after scanning `0..n`, the
accumulator holds the first index attaining the prefix minimum. -/
theorem nearestScan_spec (d : ℤ → ℚ) (n : ℕ) : ∃ j : ℕ, j ≤ n ∧
    ((List.range (n + 1)).map Int.ofNat).foldl (nearestScanStep d) none =
      some ((j : ℤ), d (j : ℤ)) ∧
    (∀ i : ℕ, i < j → d (j : ℤ) < d (i : ℤ)) ∧
    (∀ i : ℕ, i ≤ n → d (j : ℤ) ≤ d (i : ℤ)) := by
  induction n with
  | zero =>
    refine ⟨0, le_refl 0, rfl, ?_, ?_⟩
    · intro i hi; omega
    · intro i hi
      have : i = 0 := by omega
      simp [this]
  | succ n ih =>
    obtain ⟨j, hjn, heq, hstrict, hall⟩ := ih
    rw [List.range_succ, List.map_append, List.foldl_append, heq]
    simp only [List.map_cons, List.map_nil, List.foldl_cons, List.foldl_nil,
      Int.ofNat_eq_natCast, nearestScanStep]
    by_cases hlt : d ((n + 1 : ℕ) : ℤ) < d (j : ℤ)
    · rw [if_pos hlt]
      refine ⟨n + 1, le_refl _, rfl, ?_, ?_⟩
      · intro i hi
        exact lt_of_lt_of_le hlt (hall i (by omega))
      · intro i hi
        rcases Nat.lt_succ_iff_lt_or_eq.mp (Nat.lt_succ_of_le hi) with h | h
        · exact le_of_lt (lt_of_lt_of_le hlt (hall i (by omega)))
        · subst h; exact le_refl _
    · rw [if_neg hlt]
      refine ⟨j, by omega, rfl, hstrict, ?_⟩
      intro i hi
      rcases Nat.lt_succ_iff_lt_or_eq.mp (Nat.lt_succ_of_le hi) with h | h
      · exact hall i (by omega)
      · subst h; exact not_lt.mp hlt

/-- The nearest-index loop returns `m` whenever `d m` beats every earlier
index strictly and every later index weakly (first-strict-improvement
tie-breaking of the `d < best` comparison, src 1855–1860). -/
theorem nearestIndex_eq (d : ℤ → ℚ) (maxIdx : ℕ) (m : ℕ) (hm : m ≤ maxIdx)
    (hlt : ∀ i : ℕ, i < m → d (m : ℤ) < d (i : ℤ))
    (hle : ∀ i : ℕ, m ≤ i → i ≤ maxIdx → d (m : ℤ) ≤ d (i : ℤ)) :
    nearestIndex d maxIdx = (m : ℤ) := by
  obtain ⟨j, hj, heq, hstrict, hall⟩ := nearestScan_spec d maxIdx
  unfold nearestIndex
  rw [heq]
  simp only [Option.elim]
  rcases lt_trichotomy j m with h | h | h
  · exact absurd (hall m hm) (not_le.mpr (hlt j h))
  · exact congrArg _ h
  · exact absurd (hle j (le_of_lt h) hj) (not_le.mpr (hstrict m h))

/-! ### C4 — Center Resolver hysteresis -/

/-- Offsets vanish when group gaps are inactive. -/
theorem stageOffsetForIndex_of_inactive (cfg : ScrollerCfg) (s : ScrollerState)
    (i : ℤ) (h : s.groupGapsActive = false) : stageOffsetForIndex cfg s i = 0 := by
  simp [stageOffsetForIndex, h]

/-- With group gaps inactive the depth of item `i` is `-(i * gap)`. -/
theorem zOfIndex_of_inactive (cfg : ScrollerCfg) (s : ScrollerState)
    (i : ℤ) (h : s.groupGapsActive = false) :
    zOfIndex cfg s i = -((i : ℚ) * cfg.gap) := by
  simp [zOfIndex, stageOffsetForIndex_of_inactive cfg s i h]

/-- Every integer is at least `1/2` away from the half-integer `k + 1/2`. -/
theorem half_integer_gap (k : ℕ) (p : ℤ) :
    (1/2 : ℚ) ≤ |(p : ℚ) - ((k : ℚ) + 1/2)| := by
  have hne : (2 * p - 2 * (k : ℤ) - 1) ≠ 0 := by omega
  have h1 : (1 : ℤ) ≤ |2 * p - 2 * (k : ℤ) - 1| := Int.one_le_abs hne
  have h2 : (1 : ℚ) ≤ |((2 * p - 2 * (k : ℤ) - 1 : ℤ) : ℚ)| := by
    rw [← Int.cast_abs]
    exact_mod_cast h1
  have h3 : ((2 * p - 2 * (k : ℤ) - 1 : ℤ) : ℚ) = 2 * ((p : ℚ) - ((k : ℚ) + 1/2)) := by
    push_cast
    ring
  rw [h3, abs_mul] at h2
  rw [abs_of_nonneg (by norm_num : (0:ℚ) ≤ 2)] at h2
  linarith

/-- A two-item configuration for the C4 counterexample. -/
def cfgMid : ScrollerCfg :=
  { planes := 2, gap := 1, winStart := 0, winEnd := 1,
    snapEndThreshold := 3/2, maxSpd := 88, groupRanges := [] }

/-- Current Depth held at the exact midpoint of items 0 and 1, previous
Centered Index 1. -/
def stateMid : ScrollerState :=
  { initState with zSmoothed := -(1/2), centerIndex := 1, prevCenter := some 1 }

/-- C4 (counterexample): with Current Depth fixed at the exact midpoint
between items 0 and 1 and the Centered Index previously 1, the resolver
does NOT keep the prior index: the midpoint distance is `0.5 * spacing`,
which fails the `< 0.35 * spacing` hysteresis test, so the nominally
nearest (lower, first-scanned) index 0 is taken instead. -/
theorem center_hysteresis_cex :
    stateMid.centerIndex = 1 ∧ stateMid.prevCenter = some 1 ∧
    (resolveCenter cfgMid stateMid).centerIndex = 0 := by
  refine ⟨rfl, rfl, ?_⟩
  decide

/-- C4 (amended): with the navigation lock clear, the resolver keeps the
previous centered index exactly when its distance to Current Depth is
under `0.35 * spacing`; at the exact midpoint between items `k` and `k+1`
every integer index (the previous one included) is at least
`0.5 * spacing` away, so hysteresis never applies there and the resolver
returns the lower index `k` regardless of the previous value (the strict
`<` scan keeps the first minimum) — hence the Centered Index is constant
at `k` from the first resolution on (no oscillation), but it does not in
general remain the prior index. -/
theorem center_hysteresis_amended (cfg : ScrollerCfg) (s : ScrollerState)
    (hg : 0 < cfg.gap) (hgg : s.groupGapsActive = false) (hlock : s.navLock = 0) :
    (∀ p : ℤ, s.prevCenter = some p →
       |s.zSmoothed - zOfIndex cfg s p| < cfg.gap * (35/100) →
       (resolveCenter cfg s).centerIndex = p) ∧
    (∀ k : ℕ, k + 2 ≤ cfg.planes →
       s.zSmoothed = -(((k : ℚ) + 1/2) * cfg.gap) →
       (resolveCenter cfg s).centerIndex = (k : ℤ) ∧
       (resolveCenter cfg s).prevCenter = some ((k : ℤ))) := by
  have hnl : ¬ 0 < s.navLock := by omega
  constructor
  · intro p hp hdist
    unfold resolveCenter
    rw [if_neg hnl]
    dsimp only
    rw [hp]
    simp only [Option.getD_some]
    rw [if_pos hdist]
  · intro k hk hz
    have hd : ∀ i : ℤ, |s.zSmoothed - zOfIndex cfg s i| =
        |(i : ℚ) - ((k : ℚ) + 1/2)| * cfg.gap := by
      intro i
      rw [zOfIndex_of_inactive cfg s i hgg, hz]
      have he : -(((k : ℚ) + 1/2) * cfg.gap) - -((i : ℚ) * cfg.gap) =
          ((i : ℚ) - ((k : ℚ) + 1/2)) * cfg.gap := by ring
      rw [he, abs_mul, abs_of_pos hg]
    have hnear : nearestIndex (fun i => |s.zSmoothed - zOfIndex cfg s i|)
        (cfg.planes - 1) = (k : ℤ) := by
      apply nearestIndex_eq _ _ k (by omega)
      · intro i hi
        rw [hd, hd]
        have h1 : (i : ℚ) + 1 ≤ (k : ℚ) := by exact_mod_cast hi
        have ha : |(((k : ℕ) : ℤ) : ℚ) - ((k : ℚ) + 1/2)| = 1/2 := by
          push_cast
          rw [abs_of_nonpos (by linarith)]
          ring
        have hb : |(((i : ℕ) : ℤ) : ℚ) - ((k : ℚ) + 1/2)| = (k : ℚ) + 1/2 - (i : ℚ) := by
          push_cast
          rw [abs_of_nonpos (by linarith)]
          ring
        rw [ha, hb]
        have := mul_lt_mul_of_pos_right
          (show (1/2 : ℚ) < (k : ℚ) + 1/2 - (i : ℚ) by linarith) hg
        linarith
      · intro i _ _
        rw [hd, hd]
        have ha : |(((k : ℕ) : ℤ) : ℚ) - ((k : ℚ) + 1/2)| = 1/2 := by
          push_cast
          rw [abs_of_nonpos (by linarith)]
          ring
        rw [ha]
        have hhalf := half_integer_gap k ((i : ℕ) : ℤ)
        exact mul_le_mul_of_nonneg_right hhalf (le_of_lt hg)
    have hys : ∀ p0 : ℤ, ¬ (|s.zSmoothed - zOfIndex cfg s p0| < cfg.gap * (35/100)) := by
      intro p0
      rw [hd]
      have hhalf := half_integer_gap k p0
      have h1 : (1/2 : ℚ) * cfg.gap ≤ |(p0 : ℚ) - ((k : ℚ) + 1/2)| * cfg.gap :=
        mul_le_mul_of_nonneg_right hhalf (le_of_lt hg)
      have h2 : cfg.gap * (35/100) < (1/2 : ℚ) * cfg.gap := by linarith
      exact not_lt.mpr (le_of_lt (lt_of_lt_of_le h2 h1))
    unfold resolveCenter
    rw [if_neg hnl]
    dsimp only
    rw [hnear, if_neg (hys _)]
    exact ⟨rfl, rfl⟩

/-- C4 (witness): the amended theorem at the concrete midpoint state —
the resolver yields index 0 (the lower of the tied pair) there. -/
theorem center_hysteresis_amended_witness :
    (0 < cfgMid.gap ∧ stateMid.groupGapsActive = false ∧ stateMid.navLock = 0) ∧
    (0 + 2 ≤ cfgMid.planes ∧
     stateMid.zSmoothed = -((((0 : ℕ) : ℚ) + 1/2) * cfgMid.gap) ∧
     (resolveCenter cfgMid stateMid).centerIndex = ((0 : ℕ) : ℤ) ∧
     (resolveCenter cfgMid stateMid).prevCenter = some (((0 : ℕ) : ℤ))) := by
  refine ⟨⟨by norm_num [cfgMid], rfl, rfl⟩, by norm_num [cfgMid], by norm_num [stateMid, initState, cfgMid], ?_⟩
  exact (center_hysteresis_amended cfgMid stateMid (by norm_num [cfgMid]) rfl rfl).2
    0 (by norm_num [cfgMid]) (by norm_num [stateMid, initState, cfgMid])

/-! ### C3 — Motion Integrator convergence

The integrator is analysed through its residual `delta = target - current`:
`residStep` is the map the hybrid controller induces on the residual, and
`integrate_resid` proves the correspondence.  All convergence reasoning
then happens on `residStep`. -/

/-- The residual map of one integrator frame: constant-speed shrink by
`M` beyond `far` (exact arrival when `|delta| ≤ M`), geometric shrink by
`1 - alpha` inside, then the epsilon snap to `0`. -/
def residStep (far M eps alpha d : ℚ) : ℚ :=
  let d' :=
    if far < |d| then
      if M < |d| then d - qsign d * M else 0
    else d * (1 - alpha)
  if |d'| < eps then 0 else d'

/-- `|qsign d| = 1` away from zero. -/
theorem qsign_abs (d : ℚ) (h : d ≠ 0) : |qsign d| = 1 := by
  unfold qsign
  rcases lt_trichotomy d 0 with h1 | h1 | h1
  · rw [if_neg (by linarith), if_pos h1]
    norm_num
  · exact absurd h1 h
  · rw [if_pos h1]
    norm_num

/-- The integrator's residual after one frame is `residStep` of the
residual before it (with the frame's far threshold, speed cap and
epsilon). -/
theorem integrate_resid (g maxSpd dt alpha zT z : ℚ)
    (hg : 0 < g) (hM : 0 < g * maxSpd * dt) :
    zT - integrate g maxSpd dt alpha zT z =
      residStep (g * (23/10)) (g * maxSpd * dt)
        (max (1/10000) (g * (1/10000))) alpha (zT - z) := by
  unfold integrate residStep
  dsimp only
  by_cases hfar : g * (23/10) < |zT - z|
  · rw [if_pos hfar, if_pos hfar]
    have hd0 : zT - z ≠ 0 := by
      intro h0
      rw [h0, abs_zero] at hfar
      nlinarith
    have habs : |qsign (zT - z) * (g * maxSpd * dt)| = g * maxSpd * dt := by
      rw [abs_mul, qsign_abs _ hd0, one_mul, abs_of_pos hM]
    rw [habs]
    by_cases hMd : g * maxSpd * dt < |zT - z|
    · rw [if_pos hMd, if_pos hMd]
      have he : zT - (z + qsign (zT - z) * (g * maxSpd * dt)) =
          (zT - z) - qsign (zT - z) * (g * maxSpd * dt) := by ring
      rw [he]
      by_cases hsnap : |(zT - z) - qsign (zT - z) * (g * maxSpd * dt)| <
          max (1/10000) (g * (1/10000))
      · rw [if_pos hsnap, if_pos hsnap, sub_self]
      · rw [if_neg hsnap, if_neg hsnap]
        exact he
    · rw [if_neg hMd, if_neg hMd]
      have he : zT - (z + (zT - z)) = 0 := by ring
      rw [he, abs_zero]
      have h0 : (0 : ℚ) < max (1/10000) (g * (1/10000)) :=
        lt_max_of_lt_left (by norm_num)
      rw [if_pos h0, if_pos h0, sub_self]
  · rw [if_neg hfar, if_neg hfar]
    have he : zT - (z + (zT - z) * alpha) = (zT - z) * (1 - alpha) := by ring
    rw [he]
    by_cases hsnap : |(zT - z) * (1 - alpha)| < max (1/10000) (g * (1/10000))
    · rw [if_pos hsnap, if_pos hsnap, sub_self]
    · rw [if_neg hsnap, if_neg hsnap]
      exact he

/-- A zero residual is a fixed point of `residStep`. -/
theorem residStep_zero (far M eps alpha : ℚ) (hfar : 0 < far) (heps : 0 < eps) :
    residStep far M eps alpha 0 = 0 := by
  unfold residStep
  dsimp only
  rw [abs_zero, if_neg (not_lt.mpr (le_of_lt hfar)), zero_mul, abs_zero, if_pos heps]

/-- One `residStep` moves the residual toward `0` without crossing it. -/
theorem residStep_bracket (far M eps a d : ℚ)
    (hfar : 0 < far) (hM : 0 < M) (heps : 0 < eps) (ha0 : 0 < a) (ha1 : a < 1) :
    (0 ≤ d → 0 ≤ residStep far M eps a d ∧ residStep far M eps a d ≤ d) ∧
    (d ≤ 0 → d ≤ residStep far M eps a d ∧ residStep far M eps a d ≤ 0) := by
  unfold residStep qsign
  dsimp only
  constructor
  · intro hd
    rw [abs_of_nonneg hd]
    by_cases hfar' : far < d
    · rw [if_pos hfar']
      have hd0 : 0 < d := lt_trans hfar hfar'
      rw [if_pos hd0, one_mul]
      by_cases hMd : M < d
      · rw [if_pos hMd]
        by_cases hsnap : |d - M| < eps
        · rw [if_pos hsnap]
          exact ⟨le_refl 0, hd⟩
        · rw [if_neg hsnap]
          constructor <;> linarith
      · rw [if_neg hMd, abs_zero, if_pos heps]
        exact ⟨le_refl 0, hd⟩
    · rw [if_neg hfar']
      have h1 : 0 ≤ d * (1 - a) := mul_nonneg hd (by linarith)
      have h2 : d * (1 - a) ≤ d := by nlinarith
      by_cases hsnap : |d * (1 - a)| < eps
      · rw [if_pos hsnap]
        exact ⟨le_refl 0, hd⟩
      · rw [if_neg hsnap]
        exact ⟨h1, h2⟩
  · intro hd
    rw [abs_of_nonpos hd]
    by_cases hfar' : far < -d
    · rw [if_pos hfar']
      have hd0 : d < 0 := by linarith
      rw [if_neg (by linarith : ¬ 0 < d), if_pos hd0]
      by_cases hMd : M < -d
      · rw [if_pos hMd]
        by_cases hsnap : |d - -1 * M| < eps
        · rw [if_pos hsnap]
          exact ⟨hd, le_refl 0⟩
        · rw [if_neg hsnap]
          constructor <;> linarith
      · rw [if_neg hMd, abs_zero, if_pos heps]
        exact ⟨hd, le_refl 0⟩
    · rw [if_neg hfar']
      have h1 : d * (1 - a) ≤ 0 := mul_nonpos_of_nonpos_of_nonneg hd (by linarith)
      have h2 : d ≤ d * (1 - a) := by nlinarith
      by_cases hsnap : |d * (1 - a)| < eps
      · rw [if_pos hsnap]
        exact ⟨hd, le_refl 0⟩
      · rw [if_neg hsnap]
        exact ⟨h2, h1⟩

/-- `residStep` never grows the residual and never flips its sign. -/
theorem residStep_mono (far M eps a d : ℚ)
    (hfar : 0 < far) (hM : 0 < M) (heps : 0 < eps) (ha0 : 0 < a) (ha1 : a < 1) :
    |residStep far M eps a d| ≤ |d| ∧ 0 ≤ residStep far M eps a d * d := by
  obtain ⟨hpos, hneg⟩ := residStep_bracket far M eps a d hfar hM heps ha0 ha1
  rcases le_total 0 d with hd | hd
  · obtain ⟨h1, h2⟩ := hpos hd
    constructor
    · rw [abs_of_nonneg h1, abs_of_nonneg hd]
      exact h2
    · exact mul_nonneg h1 hd
  · obtain ⟨h1, h2⟩ := hneg hd
    constructor
    · rw [abs_of_nonpos h2, abs_of_nonpos hd]
      linarith
    · nlinarith

/-- After a frame the residual is exactly `0` or at least `eps` (the
epsilon snap leaves no value strictly inside `(0, eps)`). -/
theorem residStep_post (far M eps a d : ℚ) :
    residStep far M eps a d = 0 ∨ eps ≤ |residStep far M eps a d| := by
  unfold residStep
  dsimp only
  by_cases hsnap : |if far < |d| then (if M < |d| then d - qsign d * M else 0)
      else d * (1 - a)| < eps
  · rw [if_pos hsnap]
    exact Or.inl rfl
  · rw [if_neg hsnap]
    exact Or.inr (not_lt.mp hsnap)

/-- In the far regime the residual either arrives exactly or shrinks by
the full per-frame speed cap `M`. -/
theorem residStep_far (far M eps a d : ℚ) (hM : 0 < M) (heps : 0 < eps)
    (h : far < |d|) (hfar : 0 < far) :
    residStep far M eps a d = 0 ∨ |residStep far M eps a d| ≤ |d| - M := by
  unfold residStep
  dsimp only
  rw [if_pos h]
  by_cases hMd : M < |d|
  · rw [if_pos hMd]
    have hd0 : d ≠ 0 := by
      intro h0
      rw [h0, abs_zero] at h
      linarith
    have habs : |d - qsign d * M| = |d| - M := by
      unfold qsign
      rcases lt_trichotomy d 0 with h1 | h1 | h1
      · rw [if_neg (by linarith), if_pos h1]
        rw [abs_of_neg h1] at hMd ⊢
        rw [abs_of_nonpos (by linarith)]
        ring
      · exact absurd h1 hd0
      · rw [if_pos h1]
        rw [abs_of_pos h1] at hMd ⊢
        rw [abs_of_nonneg (by linarith), one_mul]
    by_cases hsnap : |d - qsign d * M| < eps
    · rw [if_pos hsnap]
      exact Or.inl rfl
    · rw [if_neg hsnap, habs]
      exact Or.inr (le_refl _)
  · rw [if_neg hMd, abs_zero, if_pos heps]
    exact Or.inl rfl

/-- In the near regime the residual either snaps to `0` or shrinks by
the exact factor `1 - a`. -/
theorem residStep_near (far M eps a d : ℚ) (ha1 : a < 1) (h : ¬ far < |d|) :
    residStep far M eps a d = 0 ∨
    |residStep far M eps a d| = |d| * (1 - a) := by
  unfold residStep
  dsimp only
  rw [if_neg h]
  by_cases hsnap : |d * (1 - a)| < eps
  · rw [if_pos hsnap]
    exact Or.inl rfl
  · rw [if_neg hsnap]
    refine Or.inr ?_
    rw [abs_mul, abs_of_nonneg (by linarith : (0:ℚ) ≤ 1 - a)]

/-- Iterating from a zero residual stays at zero. -/
theorem residStep_iterate_zero (far M eps a : ℚ) (hfar : 0 < far) (heps : 0 < eps) :
    ∀ n : ℕ, (residStep far M eps a)^[n] 0 = 0 := by
  intro n
  induction n with
  | zero => rfl
  | succ n ih =>
    rw [Function.iterate_succ_apply, residStep_zero far M eps a hfar heps]
    exact ih

/-- Phase 1: a residual within `far + k·M` is inside the near band after
`k` frames (the constant-speed regime makes progress `M` per frame). -/
theorem residStep_phase1 (far M eps a : ℚ)
    (hfar : 0 < far) (hM : 0 < M) (heps : 0 < eps) (ha0 : 0 < a) (ha1 : a < 1) :
    ∀ k : ℕ, ∀ d : ℚ, |d| ≤ far + k * M →
      |(residStep far M eps a)^[k] d| ≤ far := by
  intro k
  induction k with
  | zero =>
    intro d hd
    simpa using hd
  | succ k ih =>
    intro d hd
    rw [Function.iterate_succ_apply]
    have hcast : ((k + 1 : ℕ) : ℚ) * M = (k : ℚ) * M + M := by
      push_cast
      ring
    by_cases hfar' : far < |d|
    · rcases residStep_far far M eps a d hM heps hfar' hfar with h0 | hle
      · rw [h0]
        apply ih
        rw [abs_zero]
        positivity
      · apply ih
        rw [hcast] at hd
        linarith
    · apply ih
      have hmono := (residStep_mono far M eps a d hfar hM heps ha0 ha1).1
      have : |d| ≤ far := not_lt.mp hfar'
      have : (0:ℚ) ≤ (k : ℚ) * M := by positivity
      linarith

/-- Phase 2: inside the near band the residual either snaps to zero or
decays geometrically with ratio `1 - a`. -/
theorem residStep_phase2 (far M eps a : ℚ)
    (hfar : 0 < far) (hM : 0 < M) (heps : 0 < eps) (ha0 : 0 < a) (ha1 : a < 1) :
    ∀ n : ℕ, ∀ d C : ℚ, 0 ≤ C → C ≤ far → |d| ≤ C →
      (residStep far M eps a)^[n] d = 0 ∨
      |(residStep far M eps a)^[n] d| ≤ C * (1 - a) ^ n := by
  intro n
  induction n with
  | zero =>
    intro d C h0 hCf hd
    right
    simpa using hd
  | succ n ih =>
    intro d C h0 hCf hd
    rw [Function.iterate_succ_apply]
    have hnotfar : ¬ far < |d| := not_lt.mpr (le_trans hd hCf)
    rcases residStep_near far M eps a d ha1 hnotfar with hz | habs
    · rw [hz]
      exact Or.inl (residStep_iterate_zero far M eps a hfar heps n)
    · have hC' : (0:ℚ) ≤ C * (1 - a) := mul_nonneg h0 (by linarith)
      have hCf' : C * (1 - a) ≤ far := by nlinarith
      have hd' : |residStep far M eps a d| ≤ C * (1 - a) := by
        rw [habs]
        exact mul_le_mul_of_nonneg_right hd (by linarith)
      rcases ih (residStep far M eps a d) (C * (1 - a)) hC' hCf' hd' with h | h
      · exact Or.inl h
      · right
        have hpow : C * (1 - a) * (1 - a) ^ n = C * (1 - a) ^ (n + 1) := by
          rw [pow_succ]
          ring
        linarith [h, hpow.le, hpow.ge]

/-- The residual of the hybrid controller reaches exactly `0` in finitely
many frames and stays there. -/
theorem residStep_converges (far M eps a : ℚ)
    (hfar : 0 < far) (hM : 0 < M) (heps : 0 < eps) (ha0 : 0 < a) (ha1 : a < 1)
    (d : ℚ) :
    ∃ N : ℕ, ∀ n : ℕ, (residStep far M eps a)^[N + n] d = 0 := by
  obtain ⟨k, hk⟩ := exists_nat_ge ((|d| - far) / M)
  have hdk : |d| ≤ far + k * M := by
    have h1 := (div_le_iff hM).mp hk
    linarith
  have h1 := residStep_phase1 far M eps a hfar hM heps ha0 ha1 k d hdk
  obtain ⟨n₀, hn₀⟩ := exists_pow_lt_of_lt_one (div_pos heps hfar)
    (by linarith : 1 - a < 1)
  have hfar_pow : far * (1 - a) ^ n₀ < eps := by
    rw [div_eq_inv_mul] at hn₀
    have := (mul_lt_mul_left hfar).mpr hn₀
    calc far * (1 - a) ^ n₀ < far * (far⁻¹ * eps) := this
    _ = eps := by field_simp
  have h2 := residStep_phase2 far M eps a hfar hM heps ha0 ha1 n₀
    ((residStep far M eps a)^[k] d) far (le_of_lt hfar) (le_refl far) h1
  have h3 : (residStep far M eps a)^[n₀ + 1] ((residStep far M eps a)^[k] d) = 0 := by
    rw [Function.iterate_succ_apply']
    rcases h2 with hz | hb
    · rw [hz]
      exact residStep_zero far M eps a hfar heps
    · rcases residStep_post far M eps a ((residStep far M eps a)^[n₀]
        ((residStep far M eps a)^[k] d)) with hz | hge
      · exact hz
      · have hm := (residStep_mono far M eps a ((residStep far M eps a)^[n₀]
          ((residStep far M eps a)^[k] d)) hfar hM heps ha0 ha1).1
        linarith
  refine ⟨n₀ + 1 + k, ?_⟩
  intro n
  have hsplit : (residStep far M eps a)^[n₀ + 1 + k + n] d =
      (residStep far M eps a)^[n] ((residStep far M eps a)^[n₀ + 1]
        ((residStep far M eps a)^[k] d)) := by
    rw [← Function.iterate_add_apply, ← Function.iterate_add_apply]
    have : n₀ + 1 + k + n = n + (n₀ + 1) + k := by omega
    rw [this]
  rw [hsplit, h3]
  exact residStep_iterate_zero far M eps a hfar heps n

/-- The residual of `n` integrator frames is `n` residual steps. -/
theorem integrate_iterate_resid (g maxSpd dt a zT : ℚ)
    (hg : 0 < g) (hM : 0 < g * maxSpd * dt) :
    ∀ n : ℕ, ∀ z0 : ℚ,
      zT - (fun z => integrate g maxSpd dt a zT z)^[n] z0 =
      (residStep (g * (23/10)) (g * maxSpd * dt)
        (max (1/10000) (g * (1/10000))) a)^[n] (zT - z0) := by
  intro n
  induction n with
  | zero => intro z0; rfl
  | succ n ih =>
    intro z0
    rw [Function.iterate_succ_apply, Function.iterate_succ_apply]
    rw [ih (integrate g maxSpd dt a zT z0),
        integrate_resid g maxSpd dt a zT z0 hg hM]

/-- C3: for every initial Current Depth and constant Target Depth, with
positive spacing, speed and frame time and an ease factor in `(0,1)`,
the residual `|target - current|` never grows and never flips sign from
frame to frame (no overshoot), and the Current Depth reaches the Target
Depth exactly in a bounded number of frames (the epsilon snap finishes
the asymptotic tail) and stays there. -/
theorem motion_convergence (g maxSpd dt a zT z0 : ℚ)
    (hg : 0 < g) (hs : 0 < maxSpd) (hdt : 0 < dt) (ha0 : 0 < a) (ha1 : a < 1) :
    (∀ n : ℕ,
      |zT - (fun z => integrate g maxSpd dt a zT z)^[n + 1] z0| ≤
        |zT - (fun z => integrate g maxSpd dt a zT z)^[n] z0| ∧
      0 ≤ (zT - (fun z => integrate g maxSpd dt a zT z)^[n + 1] z0) *
            (zT - (fun z => integrate g maxSpd dt a zT z)^[n] z0)) ∧
    (∃ N : ℕ, ∀ n : ℕ, (fun z => integrate g maxSpd dt a zT z)^[N + n] z0 = zT) := by
  have hM : 0 < g * maxSpd * dt := by positivity
  have hfar : (0:ℚ) < g * (23/10) := by positivity
  have heps : (0:ℚ) < max (1/10000) (g * (1/10000)) := lt_max_of_lt_left (by norm_num)
  constructor
  · intro n
    have htr := integrate_iterate_resid g maxSpd dt a zT hg hM
    have h1 := htr n z0
    have h2 := htr (n + 1) z0
    rw [h1, h2, Function.iterate_succ_apply']
    exact residStep_mono (g * (23/10)) (g * maxSpd * dt)
      (max (1/10000) (g * (1/10000))) a _ hfar hM heps ha0 ha1
  · obtain ⟨N, hN⟩ := residStep_converges (g * (23/10)) (g * maxSpd * dt)
      (max (1/10000) (g * (1/10000))) a hfar hM heps ha0 ha1 (zT - z0)
    refine ⟨N, fun n => ?_⟩
    have := integrate_iterate_resid g maxSpd dt a zT hg hM (N + n) z0
    rw [hN n] at this
    linarith [sub_eq_zero.mp this]

/-- C3 (witness): the convergence theorem at the desktop tuning
(`gap = 1`, speed 88, `dt = 1/60`, ease factor `1/2`), target 10 from 0. -/
theorem motion_convergence_witness :
    ((0:ℚ) < 1 ∧ (0:ℚ) < 88 ∧ (0:ℚ) < 1/60 ∧ (0:ℚ) < 1/2 ∧ (1/2:ℚ) < 1) ∧
    ((∀ n : ℕ,
      |(10:ℚ) - (fun z => integrate 1 88 (1/60) (1/2) 10 z)^[n + 1] 0| ≤
        |(10:ℚ) - (fun z => integrate 1 88 (1/60) (1/2) 10 z)^[n] 0| ∧
      0 ≤ ((10:ℚ) - (fun z => integrate 1 88 (1/60) (1/2) 10 z)^[n + 1] 0) *
            ((10:ℚ) - (fun z => integrate 1 88 (1/60) (1/2) 10 z)^[n] 0)) ∧
    (∃ N : ℕ, ∀ n : ℕ, (fun z => integrate 1 88 (1/60) (1/2) 10 z)^[N + n] 0 = 10)) :=
  ⟨⟨by norm_num, by norm_num, by norm_num, by norm_num, by norm_num⟩,
   motion_convergence 1 88 (1/60) (1/2) 10 0
     (by norm_num) (by norm_num) (by norm_num) (by norm_num) (by norm_num)⟩

/-! ### Frame-phase bookkeeping lemmas (for C5, C6, C9) -/

/-- The pending-single check is a no-op unless the center sits on the
pending trigger. -/
theorem applyPendingSingle_not_arrived (s : ScrollerState)
    (h : ¬ s.pendingStageIndex = some s.centerIndex) :
    applyPendingSingle s = s := by
  unfold applyPendingSingle
  rw [if_neg h]

/-- The follow-range update touches only the staged-range bounds. -/
theorem applyFollowRange_keeps (cfg : ScrollerCfg) (s : ScrollerState) :
    (applyFollowRange cfg s).stagedIndex = s.stagedIndex ∧
    (applyFollowRange cfg s).pendingStageIndex = s.pendingStageIndex ∧
    (applyFollowRange cfg s).pendingStageRange = s.pendingStageRange ∧
    (applyFollowRange cfg s).centerIndex = s.centerIndex ∧
    (applyFollowRange cfg s).stageGap = s.stageGap ∧
    (applyFollowRange cfg s).navLock = s.navLock ∧
    (applyFollowRange cfg s).zSmoothed = s.zSmoothed ∧
    (applyFollowRange cfg s).groupGapsActive = s.groupGapsActive := by
  unfold applyFollowRange
  dsimp only
  split_ifs <;> simp

/-- `clearStage` clears every staging field, keeps the centered index and
does not touch the pending requests. -/
theorem clearStage_clears (cfg : ScrollerCfg) (s : ScrollerState) :
    (clearStage cfg s).stagedIndex = none ∧
    (clearStage cfg s).stagedRangeStart = none ∧
    (clearStage cfg s).stagedRangeEnd = none ∧
    (clearStage cfg s).groupGapsActive = false ∧
    (clearStage cfg s).stageGap = 0 ∧
    (clearStage cfg s).centerIndex = s.centerIndex ∧
    (clearStage cfg s).pendingStageIndex = s.pendingStageIndex ∧
    (clearStage cfg s).pendingStageRange = s.pendingStageRange := by
  unfold clearStage
  dsimp only
  split_ifs <;> simp

/-- The auto-collapse check never touches the pendings or the center. -/
theorem applyAutoCollapse_keeps (cfg : ScrollerCfg) (s : ScrollerState) :
    (applyAutoCollapse cfg s).pendingStageIndex = s.pendingStageIndex ∧
    (applyAutoCollapse cfg s).pendingStageRange = s.pendingStageRange ∧
    (applyAutoCollapse cfg s).centerIndex = s.centerIndex := by
  unfold applyAutoCollapse clearStage
  dsimp only
  split_ifs <;> simp

/-- The auto-collapse check cannot introduce a staged single index. -/
theorem applyAutoCollapse_stagedIndex_none (cfg : ScrollerCfg) (s : ScrollerState)
    (h : s.stagedIndex = none) : (applyAutoCollapse cfg s).stagedIndex = none := by
  unfold applyAutoCollapse clearStage
  dsimp only
  split_ifs <;> simp [h]

/-- While the pending single index has not arrived, the pending-range
phase cannot stage a single index nor clear the pending single request. -/
theorem applyPendingRange_keeps_single (cfg : ScrollerCfg) (s : ScrollerState)
    (t : ℤ) (hp : s.pendingStageIndex = some t) (hne : ¬ t = s.centerIndex)
    (hn : s.stagedIndex = none) :
    (applyPendingRange cfg s).stagedIndex = none ∧
    (applyPendingRange cfg s).pendingStageIndex = some t ∧
    (applyPendingRange cfg s).centerIndex = s.centerIndex := by
  unfold applyPendingRange applyPendingSingle stageRangeAt
  dsimp only
  have hne' : ¬ s.pendingStageIndex = some s.centerIndex := by
    rw [hp]
    simp
    exact hne
  split_ifs <;> simp_all

/-- With a positive lock the resolver only decrements it. -/
theorem resolveCenter_locked (cfg : ScrollerCfg) (s : ScrollerState)
    (h : 0 < s.navLock) :
    resolveCenter cfg s = { s with navLock := s.navLock - 1 } := by
  unfold resolveCenter
  rw [if_pos h]

/-- The resolver only writes the center, its memory and the lock. -/
theorem resolveCenter_keeps (cfg : ScrollerCfg) (s : ScrollerState) :
    (resolveCenter cfg s).stagedIndex = s.stagedIndex ∧
    (resolveCenter cfg s).pendingStageIndex = s.pendingStageIndex ∧
    (resolveCenter cfg s).pendingStageRange = s.pendingStageRange ∧
    (resolveCenter cfg s).stageGap = s.stageGap ∧
    (resolveCenter cfg s).stagedRangeStart = s.stagedRangeStart ∧
    (resolveCenter cfg s).stagedRangeEnd = s.stagedRangeEnd ∧
    (resolveCenter cfg s).groupGapsActive = s.groupGapsActive ∧
    (resolveCenter cfg s).zSmoothed = s.zSmoothed := by
  unfold resolveCenter
  split_ifs <;> simp

/-- The switch-lock countdown touches nothing else. -/
theorem tickLocks_keeps (s : ScrollerState) :
    (tickLocks s).stagedIndex = s.stagedIndex ∧
    (tickLocks s).pendingStageIndex = s.pendingStageIndex ∧
    (tickLocks s).pendingStageRange = s.pendingStageRange ∧
    (tickLocks s).stageGap = s.stageGap ∧
    (tickLocks s).stagedRangeStart = s.stagedRangeStart ∧
    (tickLocks s).stagedRangeEnd = s.stagedRangeEnd ∧
    (tickLocks s).groupGapsActive = s.groupGapsActive ∧
    (tickLocks s).centerIndex = s.centerIndex ∧
    (tickLocks s).navLock = s.navLock ∧
    (tickLocks s).zSmoothed = s.zSmoothed ∧
    (tickLocks s).prevCenter = s.prevCenter := by
  unfold tickLocks
  split_ifs <;> simp

/-- Staged-index tracking is a no-op without a staged single index. -/
theorem trackStagedIndex_none (s : ScrollerState) (h : s.stagedIndex = none) :
    trackStagedIndex s = s := by
  unfold trackStagedIndex
  rw [if_neg (by simp [h])]

/-! ### C6 — Non-follow FixedRange auto-clear -/

/-- The auto-collapse check fires when a non-follow range with positive
gap sees the centered index outside its bounds. -/
theorem applyAutoCollapse_fires (cfg : ScrollerCfg) (s : ScrollerState)
    (sS sE : ℤ) (hs : s.stagedRangeStart = some sS) (he : s.stagedRangeEnd = some sE)
    (hf : s.followRange = false) (hg : 0 < s.stageGap)
    (hout : s.centerIndex < sS ∨ sE < s.centerIndex) :
    applyAutoCollapse cfg s = { clearStage cfg s with navLock := 2 } := by
  unfold applyAutoCollapse
  dsimp only
  rw [if_pos ⟨hf, by simp [hs], by simp [he], hg⟩]
  rw [if_pos (by simp only [hs, he, Option.getD_some, RANGE_EXIT_HYST, sub_zero, add_zero]; exact hout)]

/-- C6: on any frame at whose staging check the Centered Index lies
outside an active non-follow FixedRange `[sS, sE]` with positive gap (and
no pending stage requests are queued), the Stage Mode reverts to `None`
within that same frame: the frame ends with no single, range or group
staging, a zero gap, and the Navigation Lock engaged (set to 2 by the
auto-collapse, then decremented once by the same frame's locked center
resolution, which also holds the Centered Index). -/
theorem fixedrange_autoclear (cfg : ScrollerCfg) (fin : FrameInput)
    (s : ScrollerState) (sS sE : ℤ)
    (hs : s.stagedRangeStart = some sS) (he : s.stagedRangeEnd = some sE)
    (hf : s.followRange = false) (hg : 0 < s.stageGap)
    (hp1 : s.pendingStageIndex = none) (hp2 : s.pendingStageRange = none)
    (hout : s.centerIndex < sS ∨ sE < s.centerIndex) :
    (frameStep cfg fin s).stagedRangeStart = none ∧
    (frameStep cfg fin s).stagedRangeEnd = none ∧
    (frameStep cfg fin s).stagedIndex = none ∧
    (frameStep cfg fin s).groupGapsActive = false ∧
    (frameStep cfg fin s).stageGap = 0 ∧
    (frameStep cfg fin s).navLock = 1 ∧
    (frameStep cfg fin s).centerIndex = s.centerIndex := by
  unfold frameStep
  set s1 := integratePhase cfg fin s with hs1
  have e1 : applyPendingSingle s1 = s1 :=
    applyPendingSingle_not_arrived s1 (by simp [hs1, integratePhase, hp1])
  rw [e1]
  have e2 : applyFollowRange cfg s1 = s1 := by
    unfold applyFollowRange
    rw [if_neg (by simp [hs1, integratePhase, hf])]
  rw [e2]
  have e3 : applyAutoCollapse cfg s1 = { clearStage cfg s1 with navLock := 2 } := by
    apply applyAutoCollapse_fires cfg s1 sS sE <;>
      simp [hs1, integratePhase, hs, he, hf, hg, hout]
  rw [e3]
  have hclr := clearStage_clears cfg s1
  have hgen : ∃ u : ScrollerState,
      ({ clearStage cfg s1 with navLock := 2 } : ScrollerState) = u ∧
      u.stagedIndex = none ∧ u.stagedRangeStart = none ∧ u.stagedRangeEnd = none ∧
      u.groupGapsActive = false ∧ u.stageGap = 0 ∧ u.navLock = 2 ∧
      u.centerIndex = s.centerIndex ∧ u.pendingStageIndex = none ∧
      u.pendingStageRange = none := by
    refine ⟨_, rfl, ?_, ?_, ?_, ?_, ?_, rfl, ?_, ?_, ?_⟩
    · show (clearStage cfg s1).stagedIndex = none
      exact hclr.1
    · show (clearStage cfg s1).stagedRangeStart = none
      exact hclr.2.1
    · show (clearStage cfg s1).stagedRangeEnd = none
      exact hclr.2.2.1
    · show (clearStage cfg s1).groupGapsActive = false
      exact hclr.2.2.2.1
    · show (clearStage cfg s1).stageGap = 0
      exact hclr.2.2.2.2.1
    · show (clearStage cfg s1).centerIndex = s.centerIndex
      rw [hclr.2.2.2.2.2.1, hs1]
      rfl
    · show (clearStage cfg s1).pendingStageIndex = none
      rw [hclr.2.2.2.2.2.2.1, hs1]
      exact hp1
    · show (clearStage cfg s1).pendingStageRange = none
      rw [hclr.2.2.2.2.2.2.2, hs1]
      exact hp2
  obtain ⟨u, hu, u1, u2, u3, u4, u5, u6, u7, u8, u9⟩ := hgen
  rw [hu]
  have e4 : applyPendingRange cfg u = u := by
    unfold applyPendingRange
    rw [if_neg (by simp [u9])]
    exact applyPendingSingle_not_arrived u (by simp [u8])
  rw [e4]
  have e5 : resolveCenter cfg u = { u with navLock := u.navLock - 1 } :=
    resolveCenter_locked cfg u (by rw [u6]; norm_num)
  rw [e5]
  have htick := tickLocks_keeps ({ u with navLock := u.navLock - 1 } : ScrollerState)
  have e6 : trackStagedIndex (tickLocks { u with navLock := u.navLock - 1 }) =
      tickLocks { u with navLock := u.navLock - 1 } := by
    apply trackStagedIndex_none
    rw [htick.1]
    exact u1
  rw [e6]
  refine ⟨?_, ?_, ?_, ?_, ?_, ?_, ?_⟩
  · rw [htick.2.2.2.2.1]
    exact u2
  · rw [htick.2.2.2.2.2.1]
    exact u3
  · rw [htick.1]
    exact u1
  · rw [htick.2.2.2.2.2.2.1]
    exact u4
  · rw [htick.2.2.2.1]
    exact u5
  · rw [htick.2.2.2.2.2.2.2.2.1, u6]
  · rw [htick.2.2.2.2.2.2.2.1]
    exact u7

/-- A concrete state for the C6 witness: FixedRange(2,4), gap 3,
follow = false, Centered Index at 6 (outside the range). -/
def stateC6 : ScrollerState :=
  { initState with stagedRangeStart := some 2, stagedRangeEnd := some 4,
                   stagedRangeSpan := 2, stageGap := 3,
                   centerIndex := 6, prevCenter := some 6, zSmoothed := -6 }

/-- C6 (witness): the auto-clear theorem at the concrete scenario of the
claim — FixedRange(2,4,gapAbs=3,follow=false), spacing 1, center 6. -/
theorem fixedrange_autoclear_witness :
    (stateC6.stagedRangeStart = some 2 ∧ stateC6.stagedRangeEnd = some 4 ∧
     stateC6.followRange = false ∧ 0 < stateC6.stageGap ∧
     stateC6.pendingStageIndex = none ∧ stateC6.pendingStageRange = none ∧
     (stateC6.centerIndex < 2 ∨ 4 < stateC6.centerIndex)) ∧
    ((frameStep cfg10 fin0 stateC6).stagedRangeStart = none ∧
     (frameStep cfg10 fin0 stateC6).stagedRangeEnd = none ∧
     (frameStep cfg10 fin0 stateC6).stagedIndex = none ∧
     (frameStep cfg10 fin0 stateC6).groupGapsActive = false ∧
     (frameStep cfg10 fin0 stateC6).stageGap = 0 ∧
     (frameStep cfg10 fin0 stateC6).navLock = 1 ∧
     (frameStep cfg10 fin0 stateC6).centerIndex = stateC6.centerIndex) :=
  ⟨by decide,
   fixedrange_autoclear cfg10 fin0 stateC6 2 4 rfl rfl rfl (by decide) rfl rfl
     (by decide)⟩

/-! ### C5 — Deferred single-stage correctness -/

/-- The pending-single check fires when the center sits on the trigger. -/
theorem applyPendingSingle_arrived (s : ScrollerState)
    (h : s.pendingStageIndex = some s.centerIndex) :
    applyPendingSingle s =
      { stageAt s s.centerIndex s.pendingStageGap with pendingStageIndex := none } := by
  unfold applyPendingSingle
  rw [if_pos h]

/-- Staged-index tracking with an active single stage: the staged index
ends on the centered index, other fields untouched. -/
theorem trackStagedIndex_assigns (u : ScrollerState) (j : ℤ)
    (h1 : u.stagedIndex = some j) (h2 : 0 < u.stageGap) :
    (trackStagedIndex u).stagedIndex = some u.centerIndex ∧
    (trackStagedIndex u).centerIndex = u.centerIndex ∧
    (trackStagedIndex u).pendingStageIndex = u.pendingStageIndex ∧
    (trackStagedIndex u).stageGap = u.stageGap := by
  unfold trackStagedIndex
  rw [if_pos ⟨by simp [h1], h2⟩]
  by_cases he : u.stagedIndex ≠ some u.centerIndex
  · rw [if_pos he]
    simp
  · rw [if_neg he]
    push_neg at he
    exact ⟨he, rfl, rfl, rfl⟩

/-- One frame with the pending trigger not yet reached keeps the pending
request and activates nothing. -/
theorem deferred_step_keeps (cfg : ScrollerCfg) (fin : FrameInput)
    (s : ScrollerState) (t : ℤ)
    (hp : s.pendingStageIndex = some t) (hn : s.stagedIndex = none)
    (hne : s.centerIndex ≠ t) :
    (frameStep cfg fin s).stagedIndex = none ∧
    (frameStep cfg fin s).pendingStageIndex = some t := by
  unfold frameStep
  have e1 : applyPendingSingle (integratePhase cfg fin s) = integratePhase cfg fin s := by
    apply applyPendingSingle_not_arrived
    simp only [integratePhase, hp]
    intro h
    exact hne (by simpa using h.symm)
  rw [e1]
  obtain ⟨uA, hAeq, hA1, hA2, hA3⟩ : ∃ u,
      applyFollowRange cfg (integratePhase cfg fin s) = u ∧
      u.stagedIndex = none ∧ u.pendingStageIndex = some t ∧
      u.centerIndex = s.centerIndex := by
    refine ⟨_, rfl, ?_, ?_, ?_⟩
    · rw [(applyFollowRange_keeps _ _).1]
      simpa [integratePhase] using hn
    · rw [(applyFollowRange_keeps _ _).2.1]
      simpa [integratePhase] using hp
    · rw [(applyFollowRange_keeps _ _).2.2.2.1]
      rfl
  rw [hAeq]
  obtain ⟨uB, hBeq, hB1, hB2, hB3⟩ : ∃ u,
      applyAutoCollapse cfg uA = u ∧
      u.stagedIndex = none ∧ u.pendingStageIndex = some t ∧
      u.centerIndex = s.centerIndex := by
    refine ⟨_, rfl, applyAutoCollapse_stagedIndex_none cfg uA hA1, ?_, ?_⟩
    · rw [(applyAutoCollapse_keeps _ _).1, hA2]
    · rw [(applyAutoCollapse_keeps _ _).2.2, hA3]
  rw [hBeq]
  obtain ⟨uC, hCeq, hC1, hC2⟩ : ∃ u,
      applyPendingRange cfg uB = u ∧
      u.stagedIndex = none ∧ u.pendingStageIndex = some t := by
    have hk := applyPendingRange_keeps_single cfg uB t hB2
      (by rw [hB3]; exact fun h => hne h.symm) hB1
    exact ⟨_, rfl, hk.1, hk.2.1⟩
  rw [hCeq]
  have hres := resolveCenter_keeps cfg uC
  have htick := tickLocks_keeps (resolveCenter cfg uC)
  have htrack : trackStagedIndex (tickLocks (resolveCenter cfg uC)) =
      tickLocks (resolveCenter cfg uC) := by
    apply trackStagedIndex_none
    rw [htick.1, hres.1]
    exact hC1
  rw [htrack]
  constructor
  · rw [htick.1, hres.1]
    exact hC1
  · rw [htick.2.1, hres.2.1]
    exact hC2

/-- `noArrival cfg t fins s` says the Centered Index read by each of the
frames `fins` (run from `s`) differs from the trigger `t`. -/
def noArrival (cfg : ScrollerCfg) (t : ℤ) : List FrameInput → ScrollerState → Bool
  | [], _ => true
  | fin :: rest, s => (s.centerIndex != t) && noArrival cfg t rest (frameStep cfg fin s)

/-- C5: after `goToAndStage` records a pending single stage for trigger
`t` (no single stage active), (a) as long as every frame reads a Centered
Index different from `t`, no single staging activates and the pending
request survives; and (b) on the exact frame whose Centered Index equals
`t`, the pending-single phase of that same frame activates
`SingleIndex(t, pendingGap)` and clears the request — and (with no range
staging or pending range and a positive gap) the frame ends with the
request cleared, the stage gap applied, and the staged index on the
Centered Index. -/
theorem deferred_single_stage (cfg : ScrollerCfg) (s : ScrollerState) (t : ℤ)
    (hp : s.pendingStageIndex = some t) (hn : s.stagedIndex = none) :
    (∀ fins : List FrameInput, noArrival cfg t fins s = true →
       (fins.foldl (fun st fin => frameStep cfg fin st) s).stagedIndex = none ∧
       (fins.foldl (fun st fin => frameStep cfg fin st) s).pendingStageIndex = some t) ∧
    (∀ fin : FrameInput, s.centerIndex = t →
       ((applyPendingSingle (integratePhase cfg fin s)).stagedIndex = some t ∧
        (applyPendingSingle (integratePhase cfg fin s)).stageGap =
          max 0 s.pendingStageGap ∧
        (applyPendingSingle (integratePhase cfg fin s)).pendingStageIndex = none) ∧
       (s.stagedRangeStart = none → s.pendingStageRange = none →
        0 < s.pendingStageGap →
          (frameStep cfg fin s).pendingStageIndex = none ∧
          (frameStep cfg fin s).stageGap = s.pendingStageGap ∧
          (frameStep cfg fin s).stagedIndex =
            some ((frameStep cfg fin s).centerIndex))) := by
  constructor
  · have main : ∀ fins : List FrameInput, ∀ u : ScrollerState,
        u.pendingStageIndex = some t → u.stagedIndex = none →
        noArrival cfg t fins u = true →
        (fins.foldl (fun st fin => frameStep cfg fin st) u).stagedIndex = none ∧
        (fins.foldl (fun st fin => frameStep cfg fin st) u).pendingStageIndex = some t := by
      intro fins
      induction fins with
      | nil =>
        intro u hu1 hu2 _
        exact ⟨hu2, hu1⟩
      | cons fin rest ih =>
        intro u hu1 hu2 hna
        rw [noArrival] at hna
        rw [Bool.and_eq_true, bne_iff_ne] at hna
        obtain ⟨hne, hna'⟩ := hna
        have hstep := deferred_step_keeps cfg fin u t hu1 hu2 hne
        rw [List.foldl_cons]
        exact ih (frameStep cfg fin u) hstep.2 hstep.1 hna'
    exact fun fins => main fins s hp hn
  · intro fin hc
    have hp' : (integratePhase cfg fin s).pendingStageIndex =
        some (integratePhase cfg fin s).centerIndex := by
      simp [integratePhase, hp, hc]
    have e1 := applyPendingSingle_arrived (integratePhase cfg fin s) hp'
    have hmid : (applyPendingSingle (integratePhase cfg fin s)).stagedIndex = some t ∧
        (applyPendingSingle (integratePhase cfg fin s)).stageGap =
          max 0 s.pendingStageGap ∧
        (applyPendingSingle (integratePhase cfg fin s)).pendingStageIndex = none := by
      rw [e1]
      refine ⟨?_, rfl, rfl⟩
      show some (integratePhase cfg fin s).centerIndex = some t
      simp [integratePhase, hc]
    refine ⟨hmid, ?_⟩
    intro hr1 hr2 hgap
    obtain ⟨uD, hDeq, hD1, hD2, hD3, hD4, hD5⟩ : ∃ u,
        applyPendingSingle (integratePhase cfg fin s) = u ∧
        u.stagedIndex = some t ∧ u.stageGap = s.pendingStageGap ∧
        u.pendingStageIndex = none ∧ u.pendingStageRange = none ∧
        u.stagedRangeStart = none := by
      refine ⟨_, rfl, hmid.1, ?_, hmid.2.2, ?_, ?_⟩
      · rw [hmid.2.1]
        exact max_eq_right (le_of_lt hgap)
      · rw [e1]
        show s.pendingStageRange = none
        exact hr2
      · rw [e1]
        show s.stagedRangeStart = none
        exact hr1
    unfold frameStep
    rw [hDeq]
    have e2 : applyFollowRange cfg uD = uD := by
      unfold applyFollowRange
      rw [if_neg (by simp [hD5])]
    rw [e2]
    have e3 : applyAutoCollapse cfg uD = uD := by
      unfold applyAutoCollapse
      rw [if_neg (by simp [hD5])]
    rw [e3]
    have e4 : applyPendingRange cfg uD = uD := by
      unfold applyPendingRange
      rw [if_neg (by simp [hD4])]
      exact applyPendingSingle_not_arrived uD (by simp [hD3])
    rw [e4]
    have hres := resolveCenter_keeps cfg uD
    have htick := tickLocks_keeps (resolveCenter cfg uD)
    have htr := trackStagedIndex_assigns (tickLocks (resolveCenter cfg uD)) t
      (by rw [htick.1, hres.1]; exact hD1)
      (by rw [htick.2.2.2.1, hres.2.2.2.1, hD2]; exact hgap)
    refine ⟨?_, ?_, ?_⟩
    · rw [htr.2.2.1, htick.2.1, hres.2.1]
      exact hD3
    · rw [htr.2.2.2, htick.2.2.2.1, hres.2.2.2.1]
      exact hD2
    · rw [htr.1, htr.2.1]

/-- The state right after `goToAndStage(7, 2)` from the initial state. -/
def stateC5 : ScrollerState := (goToAndStage cfg10 initState 7 2).1

/-- The same pending state with the Centered Index arrived at 7. -/
def stateC5arr : ScrollerState :=
  { stateC5 with centerIndex := 7, prevCenter := some 7, zSmoothed := -7 }

set_option maxRecDepth 400000 in
/-- C5 (witness): `goToAndStage(7, 2)` concretely — a frame that reads
Centered Index 0 activates nothing and keeps the request; a frame that
reads Centered Index 7 ends with `SingleIndex` active at the center with
gap 2 and the request cleared. -/
theorem deferred_single_stage_witness :
    (stateC5.pendingStageIndex = some 7 ∧ stateC5.stagedIndex = none ∧
     noArrival cfg10 7 [fin0] stateC5 = true ∧
     stateC5arr.pendingStageIndex = some 7 ∧ stateC5arr.stagedIndex = none ∧
     stateC5arr.centerIndex = 7 ∧ stateC5arr.stagedRangeStart = none ∧
     stateC5arr.pendingStageRange = none ∧ 0 < stateC5arr.pendingStageGap) ∧
    (([fin0].foldl (fun st fin => frameStep cfg10 fin st) stateC5).stagedIndex = none ∧
     ([fin0].foldl (fun st fin => frameStep cfg10 fin st) stateC5).pendingStageIndex =
       some 7) ∧
    ((frameStep cfg10 fin0 stateC5arr).pendingStageIndex = none ∧
     (frameStep cfg10 fin0 stateC5arr).stageGap = stateC5arr.pendingStageGap ∧
     (frameStep cfg10 fin0 stateC5arr).stagedIndex =
       some ((frameStep cfg10 fin0 stateC5arr).centerIndex)) :=
  ⟨⟨by decide, by decide, by decide, by decide, by decide, by decide, by decide,
    by decide, by decide⟩,
   (deferred_single_stage cfg10 stateC5 7 (by decide) (by decide)).1 [fin0] (by decide),
   ((deferred_single_stage cfg10 stateC5arr 7 (by decide) (by decide)).2 fin0
     (by decide)).2 (by decide) (by decide) (by decide)⟩

/-! ### C9 — `goTo` clamping and settling -/

/-- `qclamp` is the identity inside the window. -/
theorem qclamp_id (v lo hi : ℚ) (h0 : lo ≤ v) (h1 : v ≤ hi) :
    qclamp v lo hi = v := by
  unfold qclamp
  rw [min_eq_right h1, max_eq_right h0]

/-- `clampIndex` is idempotent. -/
theorem clampIndex_idem (cfg : ScrollerCfg) (i : ℤ) :
    clampIndex cfg (clampIndex cfg i) = clampIndex cfg i := by
  unfold clampIndex
  omega

/-- `clampIndex` lands in `[0, planes - 1]`. -/
theorem clampIndex_mem (cfg : ScrollerCfg) (i : ℤ) (hp : 2 ≤ cfg.planes) :
    0 ≤ clampIndex cfg i ∧ clampIndex cfg i ≤ (cfg.planes : ℤ) - 1 := by
  unfold clampIndex
  have : (2 : ℤ) ≤ (cfg.planes : ℤ) := by exact_mod_cast hp
  omega

/-- The scroll fraction `goTo(i)` writes, with no staging active: the
window start plus the clamped index's fraction of the index span. -/
theorem goto_value (cfg : ScrollerCfg) (s : ScrollerState) (i : ℤ)
    (hp : 2 ≤ cfg.planes) (hg : 0 < cfg.gap) (hgg : s.groupGapsActive = false) :
    goTo cfg s i =
      qclamp (cfg.winStart + ((clampIndex cfg i : ℤ) : ℚ) / (((cfg.planes : ℤ) - 1 : ℤ) : ℚ) *
        (cfg.winEnd - cfg.winStart)) 0 1 := by
  have hp' : (2 : ℤ) ≤ (cfg.planes : ℤ) := by exact_mod_cast hp
  have hmZ : (1 : ℤ) ≤ (cfg.planes : ℤ) - 1 := by omega
  have hmQ : (0 : ℚ) < (((cfg.planes : ℤ) - 1 : ℤ) : ℚ) := by exact_mod_cast hmZ
  obtain ⟨hi0, hi1⟩ := clampIndex_mem cfg i hp
  have hiQ0 : (0 : ℚ) ≤ ((clampIndex cfg i : ℤ) : ℚ) := by exact_mod_cast hi0
  have hiQ1 : ((clampIndex cfg i : ℤ) : ℚ) ≤ (((cfg.planes : ℤ) - 1 : ℤ) : ℚ) := by
    exact_mod_cast hi1
  unfold goTo centerOnScroll getZSpan
  dsimp only
  have hclamp : max 0 (min ((cfg.planes : ℤ) - 1) (clampIndex cfg i)) = clampIndex cfg i := by
    have := clampIndex_idem cfg i
    unfold clampIndex at this ⊢
    omega
  rw [hclamp]
  rw [stageOffsetForIndex_of_inactive cfg s _ hgg]
  rw [show max (0 : ℤ) ((cfg.planes : ℤ) - 1) = (cfg.planes : ℤ) - 1 by omega]
  rw [zOfIndex_of_inactive cfg s 0 hgg, zOfIndex_of_inactive cfg s _ hgg]
  have hz0 : -(((0 : ℤ) : ℚ) * cfg.gap) = 0 := by push_cast; ring
  rw [hz0]
  have hnum : -(((clampIndex cfg i : ℤ) : ℚ) * cfg.gap + 0) - 0 =
      -(((clampIndex cfg i : ℤ) : ℚ) * cfg.gap) := by ring
  have hden : -((((cfg.planes : ℤ) - 1 : ℤ) : ℚ) * cfg.gap) - 0 =
      -((((cfg.planes : ℤ) - 1 : ℤ) : ℚ) * cfg.gap) := by ring
  rw [hnum, hden]
  have hdiv : -(((clampIndex cfg i : ℤ) : ℚ) * cfg.gap) /
      -((((cfg.planes : ℤ) - 1 : ℤ) : ℚ) * cfg.gap) =
      ((clampIndex cfg i : ℤ) : ℚ) / (((cfg.planes : ℤ) - 1 : ℤ) : ℚ) := by
    rw [neg_div_neg_eq]
    exact mul_div_mul_right _ _ (ne_of_gt hg)
  rw [hdiv]
  rw [qclamp_id _ 0 1 (div_nonneg hiQ0 (le_of_lt hmQ))
    ((div_le_one hmQ).mpr hiQ1)]

/-- The Scroll Signal Adapter maps the `goTo` scroll fraction back to the
index fraction `τ` exactly (window hypotheses, snap threshold ≥ 1, and
physical-end forcing consistent with `τ`). -/
theorem computeProgress_goto (cfg : ScrollerCfg) (scrollT scrollH clientH τ : ℚ)
    (hw : 1/1000000 ≤ cfg.winEnd - cfg.winStart)
    (hτ0 : 0 ≤ τ) (hτ1 : τ ≤ 1) (hsnap : 1 ≤ cfg.snapEndThreshold)
    (htop : scrollT ≤ 1 → τ = 0)
    (hbot : |scrollT - max 0 (scrollH - clientH)| ≤ 1 → τ = 1) :
    computeProgress cfg (cfg.winStart + τ * (cfg.winEnd - cfg.winStart))
      scrollT scrollH clientH = τ := by
  have hwpos : (0 : ℚ) < cfg.winEnd - cfg.winStart := by linarith
  unfold computeProgress
  dsimp only
  have hmaxw : max (1/1000000 : ℚ) (cfg.winEnd - cfg.winStart) =
      cfg.winEnd - cfg.winStart := max_eq_right hw
  have hp0 : qclamp ((cfg.winStart + τ * (cfg.winEnd - cfg.winStart) - cfg.winStart) /
      max (1/1000000) (cfg.winEnd - cfg.winStart)) 0 1 = τ := by
    rw [hmaxw]
    have hnum : cfg.winStart + τ * (cfg.winEnd - cfg.winStart) - cfg.winStart =
        τ * (cfg.winEnd - cfg.winStart) := by ring
    rw [hnum, mul_div_assoc, div_self (ne_of_gt hwpos), mul_one]
    exact qclamp_id τ 0 1 hτ0 hτ1
  rw [hp0]
  by_cases hB : |scrollT - max 0 (scrollH - clientH)| ≤ 1
  · rw [if_pos hB]
    rw [hbot hB]
    rw [if_neg (by linarith), if_neg (by linarith)]
  · rw [if_neg hB]
    by_cases hT : scrollT ≤ 1
    · rw [if_pos hT, htop hT]
      rw [if_neg (by linarith), if_neg (by linarith)]
    · rw [if_neg hT]
      rw [if_neg (by linarith), if_neg (by linarith)]

/-- No staging of any kind is active and no stage request is pending. -/
def CleanState (u : ScrollerState) : Prop :=
  u.stagedIndex = none ∧ u.stagedRangeStart = none ∧ u.stagedRangeEnd = none ∧
  u.groupGapsActive = false ∧ u.pendingStageIndex = none ∧ u.pendingStageRange = none

instance (u : ScrollerState) : Decidable (CleanState u) := by
  unfold CleanState
  infer_instance

/-- Shape of one frame on a clean state: only the integrator, the center
resolution and the lock countdowns act; cleanliness is preserved. -/
theorem frameStep_clean (cfg : ScrollerCfg) (fin : FrameInput) (u : ScrollerState)
    (h : CleanState u) :
    CleanState (frameStep cfg fin u) ∧
    (frameStep cfg fin u).zSmoothed =
      integrate cfg.gap cfg.maxSpd fin.dt fin.alpha (zTargetOf cfg fin u) u.zSmoothed ∧
    (frameStep cfg fin u).navLock = u.navLock - 1 ∧
    (frameStep cfg fin u).centerIndex =
      (resolveCenter cfg (integratePhase cfg fin u)).centerIndex := by
  obtain ⟨h1, h2, h3, h4, h5, h6⟩ := h
  unfold frameStep
  have e1 : applyPendingSingle (integratePhase cfg fin u) = integratePhase cfg fin u :=
    applyPendingSingle_not_arrived _ (by simp [integratePhase, h5])
  rw [e1]
  have e2 : applyFollowRange cfg (integratePhase cfg fin u) = integratePhase cfg fin u := by
    unfold applyFollowRange
    rw [if_neg (by simp [integratePhase, h2])]
  rw [e2]
  have e3 : applyAutoCollapse cfg (integratePhase cfg fin u) = integratePhase cfg fin u := by
    unfold applyAutoCollapse
    rw [if_neg (by simp [integratePhase, h2])]
  rw [e3]
  have e4 : applyPendingRange cfg (integratePhase cfg fin u) = integratePhase cfg fin u := by
    unfold applyPendingRange
    rw [if_neg (by simp [integratePhase, h6])]
    exact applyPendingSingle_not_arrived _ (by simp [integratePhase, h5])
  rw [e4]
  have hres := resolveCenter_keeps cfg (integratePhase cfg fin u)
  have htick := tickLocks_keeps (resolveCenter cfg (integratePhase cfg fin u))
  have e6 : trackStagedIndex (tickLocks (resolveCenter cfg (integratePhase cfg fin u))) =
      tickLocks (resolveCenter cfg (integratePhase cfg fin u)) := by
    apply trackStagedIndex_none
    rw [htick.1, hres.1]
    exact h1
  rw [e6]
  refine ⟨⟨?_, ?_, ?_, ?_, ?_, ?_⟩, ?_, ?_, ?_⟩
  · rw [htick.1, hres.1]; exact h1
  · rw [htick.2.2.2.2.1, hres.2.2.2.2.1]; exact h2
  · rw [htick.2.2.2.2.2.1, hres.2.2.2.2.2.1]; exact h3
  · rw [htick.2.2.2.2.2.2.1, hres.2.2.2.2.2.2.1]; exact h4
  · rw [htick.2.1, hres.2.1]; exact h5
  · rw [htick.2.2.1, hres.2.2.1]; exact h6
  · rw [htick.2.2.2.2.2.2.2.2.2.1, hres.2.2.2.2.2.2.2]
    rfl
  · rw [htick.2.2.2.2.2.2.2.2.1]
    unfold resolveCenter
    by_cases hnl : 0 < (integratePhase cfg fin u).navLock
    · rw [if_pos hnl]
      show (integratePhase cfg fin u).navLock - 1 = u.navLock - 1
      rfl
    · rw [if_neg hnl]
      show (integratePhase cfg fin u).navLock = u.navLock - 1
      have : (integratePhase cfg fin u).navLock = u.navLock := rfl
      omega
  · rw [htick.2.2.2.2.2.2.2.1]

/-- When the smoothed depth sits exactly on item `m`'s gapless depth and
the lock is clear, the resolver yields `m` (hysteresis can only confirm
`m`, since every other integer index is a full spacing away). -/
theorem resolveCenter_exact (cfg : ScrollerCfg) (u : ScrollerState) (m : ℤ)
    (hg : 0 < cfg.gap) (hgg : u.groupGapsActive = false) (hlock : u.navLock = 0)
    (hp : 2 ≤ cfg.planes) (hm0 : 0 ≤ m) (hm1 : m ≤ (cfg.planes : ℤ) - 1)
    (hz : u.zSmoothed = -((m : ℚ) * cfg.gap)) :
    (resolveCenter cfg u).centerIndex = m := by
  have hp' : (2 : ℤ) ≤ (cfg.planes : ℤ) := by exact_mod_cast hp
  have hd : ∀ i : ℤ, |u.zSmoothed - zOfIndex cfg u i| = |(i : ℚ) - (m : ℚ)| * cfg.gap := by
    intro i
    rw [zOfIndex_of_inactive cfg u i hgg, hz]
    have he : -((m : ℚ) * cfg.gap) - -((i : ℚ) * cfg.gap) =
        ((i : ℚ) - (m : ℚ)) * cfg.gap := by ring
    rw [he, abs_mul, abs_of_pos hg]
  have hmN : ((m.toNat : ℕ) : ℤ) = m := Int.toNat_of_nonneg hm0
  have hnear : nearestIndex (fun i => |u.zSmoothed - zOfIndex cfg u i|)
      (cfg.planes - 1) = m := by
    rw [← hmN]
    apply nearestIndex_eq _ _ m.toNat (by omega)
    · intro i hi
      rw [hd, hd, hmN]
      have h0 : |(m : ℚ) - (m : ℚ)| = 0 := by rw [sub_self, abs_zero]
      rw [h0, zero_mul]
      have hine : ((i : ℕ) : ℚ) ≠ (m : ℚ) := by
        have : ((i : ℕ) : ℤ) < m := by omega
        intro hcon
        have : ((i : ℕ) : ℤ) = m := by exact_mod_cast hcon
        omega
      exact mul_pos (abs_pos.mpr (sub_ne_zero.mpr hine)) hg
    · intro i _ _
      rw [hd, hd, hmN]
      have h0 : |(m : ℚ) - (m : ℚ)| = 0 := by rw [sub_self, abs_zero]
      rw [h0, zero_mul]
      positivity
  have hnl : ¬ 0 < u.navLock := by omega
  unfold resolveCenter
  rw [if_neg hnl]
  dsimp only
  rw [hnear]
  by_cases hhys : |u.zSmoothed - zOfIndex cfg u (u.prevCenter.getD m)| < cfg.gap * (35/100)
  · rw [if_pos hhys]
    show u.prevCenter.getD m = m
    rw [hd] at hhys
    set p := u.prevCenter.getD m with hpdef
    have habs : |((p - m : ℤ) : ℚ)| < 1 := by
      have hcast : ((p - m : ℤ) : ℚ) = (p : ℚ) - (m : ℚ) := by push_cast; ring
      rw [hcast]
      nlinarith [abs_nonneg ((p : ℚ) - (m : ℚ))]
    have h2 : -1 < p - m ∧ p - m < 1 := abs_lt.mp (by exact_mod_cast habs)
    omega
  · rw [if_neg hhys]

/-- The exact lerp computation of the frame target at the `goTo` fraction. -/
theorem lerp_exact (D c gap : ℚ) (hD : D ≠ 0) :
    0 + (-(D * gap) - 0) * (c / D) = -(c * gap) := by
  field_simp
  ring

/-- After `goTo(i)`, every frame's target depth is exactly the clamped
index's gapless depth (no staging active). -/
theorem zTargetOf_goto (cfg : ScrollerCfg) (fin : FrameInput) (u : ScrollerState) (i : ℤ)
    (hp : 2 ≤ cfg.planes) (hg : 0 < cfg.gap)
    (hw : 1/1000000 ≤ cfg.winEnd - cfg.winStart) (hsnap : 1 ≤ cfg.snapEndThreshold)
    (hgg : u.groupGapsActive = false)
    (hraw : fin.raw = cfg.winStart +
      ((clampIndex cfg i : ℤ) : ℚ) / (((cfg.planes : ℤ) - 1 : ℤ) : ℚ) *
        (cfg.winEnd - cfg.winStart))
    (htop : fin.scrollTop ≤ 1 → clampIndex cfg i = 0)
    (hbot : |fin.scrollTop - max 0 (fin.scrollH - fin.clientH)| ≤ 1 →
      clampIndex cfg i = (cfg.planes : ℤ) - 1) :
    zTargetOf cfg fin u = -(((clampIndex cfg i : ℤ) : ℚ) * cfg.gap) := by
  have hp' : (2 : ℤ) ≤ (cfg.planes : ℤ) := by exact_mod_cast hp
  have hmZ : (1 : ℤ) ≤ (cfg.planes : ℤ) - 1 := by omega
  have hmQ : (0 : ℚ) < (((cfg.planes : ℤ) - 1 : ℤ) : ℚ) := by exact_mod_cast hmZ
  obtain ⟨hi0, hi1⟩ := clampIndex_mem cfg i hp
  have hiQ0 : (0 : ℚ) ≤ ((clampIndex cfg i : ℤ) : ℚ) := by exact_mod_cast hi0
  have hiQ1 : ((clampIndex cfg i : ℤ) : ℚ) ≤ (((cfg.planes : ℤ) - 1 : ℤ) : ℚ) := by
    exact_mod_cast hi1
  have hτ0 : (0 : ℚ) ≤ ((clampIndex cfg i : ℤ) : ℚ) / (((cfg.planes : ℤ) - 1 : ℤ) : ℚ) :=
    div_nonneg hiQ0 (le_of_lt hmQ)
  have hτ1 : ((clampIndex cfg i : ℤ) : ℚ) / (((cfg.planes : ℤ) - 1 : ℤ) : ℚ) ≤ 1 :=
    (div_le_one hmQ).mpr hiQ1
  have hτtop : fin.scrollTop ≤ 1 →
      ((clampIndex cfg i : ℤ) : ℚ) / (((cfg.planes : ℤ) - 1 : ℤ) : ℚ) = 0 := by
    intro h
    rw [htop h]
    simp
  have hτbot : |fin.scrollTop - max 0 (fin.scrollH - fin.clientH)| ≤ 1 →
      ((clampIndex cfg i : ℤ) : ℚ) / (((cfg.planes : ℤ) - 1 : ℤ) : ℚ) = 1 := by
    intro h
    rw [hbot h]
    exact div_self (ne_of_gt hmQ)
  unfold zTargetOf getZSpan qlerp
  dsimp only
  rw [hraw, computeProgress_goto cfg fin.scrollTop fin.scrollH fin.clientH _
    hw hτ0 hτ1 hsnap hτtop hτbot]
  rw [show max (0 : ℤ) ((cfg.planes : ℤ) - 1) = (cfg.planes : ℤ) - 1 by omega]
  rw [zOfIndex_of_inactive cfg u 0 hgg, zOfIndex_of_inactive cfg u _ hgg]
  have hz0 : -(((0 : ℤ) : ℚ) * cfg.gap) = 0 := by push_cast; ring
  rw [hz0]
  exact lerp_exact _ _ _ (ne_of_gt hmQ)

set_option maxHeartbeats 1000000 in
/-- C9: from a state with no staging or pending requests, `goTo(i)` (any
integer `i`) writes a scroll fraction whose frames make the Centered
Index settle at `clamp(i, 0, N-1)` and stay there: the progress maps back
to the clamped index's exact depth, the hybrid integrator reaches it in
finitely many frames, the navigation lock runs out, and the resolver then
returns the clamped index on every subsequent frame. -/
theorem goto_settles (cfg : ScrollerCfg) (s : ScrollerState) (fin : FrameInput) (i : ℤ)
    (hp : 2 ≤ cfg.planes) (hg : 0 < cfg.gap)
    (hw : 1/1000000 ≤ cfg.winEnd - cfg.winStart)
    (hs0 : 0 ≤ cfg.winStart) (hs1 : cfg.winEnd ≤ 1)
    (hsnap : 1 ≤ cfg.snapEndThreshold) (hspd : 0 < cfg.maxSpd)
    (hdt : 0 < fin.dt) (ha0 : 0 < fin.alpha) (ha1 : fin.alpha < 1)
    (hclean : CleanState s)
    (hraw : fin.raw = goTo cfg s i)
    (htop : fin.scrollTop ≤ 1 → clampIndex cfg i = 0)
    (hbot : |fin.scrollTop - max 0 (fin.scrollH - fin.clientH)| ≤ 1 →
      clampIndex cfg i = (cfg.planes : ℤ) - 1) :
    ∃ N : ℕ, ∀ n : ℕ,
      ((frameStep cfg fin)^[N + n] s).centerIndex = clampIndex cfg i := by
  have hp' : (2 : ℤ) ≤ (cfg.planes : ℤ) := by exact_mod_cast hp
  have hmZ : (1 : ℤ) ≤ (cfg.planes : ℤ) - 1 := by omega
  have hmQ : (0 : ℚ) < (((cfg.planes : ℤ) - 1 : ℤ) : ℚ) := by exact_mod_cast hmZ
  obtain ⟨hi0, hi1⟩ := clampIndex_mem cfg i hp
  have hiQ0 : (0 : ℚ) ≤ ((clampIndex cfg i : ℤ) : ℚ) := by exact_mod_cast hi0
  have hiQ1 : ((clampIndex cfg i : ℤ) : ℚ) ≤ (((cfg.planes : ℤ) - 1 : ℤ) : ℚ) := by
    exact_mod_cast hi1
  -- the scroll fraction goTo writes, un-clamped
  have hraw' : fin.raw = cfg.winStart +
      ((clampIndex cfg i : ℤ) : ℚ) / (((cfg.planes : ℤ) - 1 : ℤ) : ℚ) *
        (cfg.winEnd - cfg.winStart) := by
    rw [hraw, goto_value cfg s i hp hg hclean.2.2.2.1]
    apply qclamp_id
    · have hτ0 : (0:ℚ) ≤ ((clampIndex cfg i : ℤ) : ℚ) / (((cfg.planes : ℤ) - 1 : ℤ) : ℚ) :=
        div_nonneg hiQ0 (le_of_lt hmQ)
      nlinarith
    · have hτ1 : ((clampIndex cfg i : ℤ) : ℚ) / (((cfg.planes : ℤ) - 1 : ℤ) : ℚ) ≤ 1 :=
        (div_le_one hmQ).mpr hiQ1
      have hτ0 : (0:ℚ) ≤ ((clampIndex cfg i : ℤ) : ℚ) / (((cfg.planes : ℤ) - 1 : ℤ) : ℚ) :=
        div_nonneg hiQ0 (le_of_lt hmQ)
      nlinarith
  have hzt : ∀ u : ScrollerState, u.groupGapsActive = false →
      zTargetOf cfg fin u = -(((clampIndex cfg i : ℤ) : ℚ) * cfg.gap) := by
    intro u hu
    exact zTargetOf_goto cfg fin u i hp hg hw hsnap hu hraw' htop hbot
  -- the trace of frames
  have htrace : ∀ n : ℕ,
      CleanState ((frameStep cfg fin)^[n] s) ∧
      ((frameStep cfg fin)^[n] s).zSmoothed =
        (fun z => integrate cfg.gap cfg.maxSpd fin.dt fin.alpha
          (-(((clampIndex cfg i : ℤ) : ℚ) * cfg.gap)) z)^[n] s.zSmoothed ∧
      ((frameStep cfg fin)^[n] s).navLock = s.navLock - n := by
    intro n
    induction n with
    | zero => exact ⟨hclean, rfl, by simp⟩
    | succ n ih =>
      obtain ⟨ihc, ihz, ihl⟩ := ih
      obtain ⟨c', z', l', _⟩ := frameStep_clean cfg fin ((frameStep cfg fin)^[n] s) ihc
      rw [hzt _ ihc.2.2.2.1] at z'
      refine ⟨?_, ?_, ?_⟩
      · rw [Function.iterate_succ_apply']
        exact c'
      · rw [Function.iterate_succ_apply', Function.iterate_succ_apply', z', ihz]
      · rw [Function.iterate_succ_apply', l', ihl]
        omega
  -- integrator convergence
  have hM : 0 < cfg.gap * cfg.maxSpd * fin.dt := by positivity
  obtain ⟨Nz, hNz⟩ := residStep_converges (cfg.gap * (23/10)) (cfg.gap * cfg.maxSpd * fin.dt)
    (max (1/10000) (cfg.gap * (1/10000))) fin.alpha (by positivity) hM
    (lt_max_of_lt_left (by norm_num)) ha0 ha1
    (-(((clampIndex cfg i : ℤ) : ℚ) * cfg.gap) - s.zSmoothed)
  have hconv : ∀ n : ℕ,
      (fun z => integrate cfg.gap cfg.maxSpd fin.dt fin.alpha
        (-(((clampIndex cfg i : ℤ) : ℚ) * cfg.gap)) z)^[Nz + n] s.zSmoothed =
      -(((clampIndex cfg i : ℤ) : ℚ) * cfg.gap) := by
    intro n
    have hit := integrate_iterate_resid cfg.gap cfg.maxSpd fin.dt fin.alpha
      (-(((clampIndex cfg i : ℤ) : ℚ) * cfg.gap)) hg hM (Nz + n) s.zSmoothed
    rw [hNz n] at hit
    linarith [sub_eq_zero.mp hit]
  refine ⟨max s.navLock Nz + 1, ?_⟩
  intro n
  rw [show max s.navLock Nz + 1 + n = (max s.navLock Nz + n) + 1 by omega,
      Function.iterate_succ_apply']
  obtain ⟨hCl, hz, hnl⟩ := htrace (max s.navLock Nz + n)
  obtain ⟨_, _, _, hcen⟩ := frameStep_clean cfg fin ((frameStep cfg fin)^[max s.navLock Nz + n] s) hCl
  rw [hcen]
  apply resolveCenter_exact cfg _ (clampIndex cfg i) hg ?_ ?_ hp hi0 hi1 ?_
  · show ((frameStep cfg fin)^[max s.navLock Nz + n] s).groupGapsActive = false
    exact hCl.2.2.2.1
  · show ((frameStep cfg fin)^[max s.navLock Nz + n] s).navLock = 0
    rw [hnl]
    omega
  · show integrate cfg.gap cfg.maxSpd fin.dt fin.alpha
      (zTargetOf cfg fin ((frameStep cfg fin)^[max s.navLock Nz + n] s))
      (((frameStep cfg fin)^[max s.navLock Nz + n] s).zSmoothed) =
      -(((clampIndex cfg i : ℤ) : ℚ) * cfg.gap)
    rw [hzt _ hCl.2.2.2.1, hz]
    have hstep : integrate cfg.gap cfg.maxSpd fin.dt fin.alpha
        (-(((clampIndex cfg i : ℤ) : ℚ) * cfg.gap))
        ((fun z => integrate cfg.gap cfg.maxSpd fin.dt fin.alpha
          (-(((clampIndex cfg i : ℤ) : ℚ) * cfg.gap)) z)^[max s.navLock Nz + n] s.zSmoothed) =
        (fun z => integrate cfg.gap cfg.maxSpd fin.dt fin.alpha
          (-(((clampIndex cfg i : ℤ) : ℚ) * cfg.gap)) z)^[max s.navLock Nz + n + 1] s.zSmoothed := by
      rw [Function.iterate_succ_apply']
    rw [hstep, show max s.navLock Nz + n + 1 = Nz + (max s.navLock Nz + n + 1 - Nz) by omega]
    exact hconv _

/-- Concrete frame input for the C9 witness: the scroll reading produced
by `goTo(15)` on the 10-item stack, physically at the container bottom
(consistent with the clamped index 9 being the last item). -/
def finC9 : FrameInput :=
  { raw := goTo cfg10 initState 15, scrollTop := 90, scrollH := 100, clientH := 10,
    dt := 1/60, alpha := 1/2 }

set_option maxRecDepth 400000 in
/-- C9 (witness): `goTo(15)` on the 10-item stack (an out-of-range
index) settles the Centered Index at `clamp(15, 0, 9) = 9`. -/
theorem goto_settles_witness :
    (2 ≤ cfg10.planes ∧ 0 < cfg10.gap ∧
     (1/1000000 : ℚ) ≤ cfg10.winEnd - cfg10.winStart ∧
     0 ≤ cfg10.winStart ∧ cfg10.winEnd ≤ 1 ∧
     1 ≤ cfg10.snapEndThreshold ∧ 0 < cfg10.maxSpd ∧
     0 < finC9.dt ∧ 0 < finC9.alpha ∧ finC9.alpha < 1 ∧
     CleanState initState ∧
     finC9.raw = goTo cfg10 initState 15 ∧
     (finC9.scrollTop ≤ 1 → clampIndex cfg10 15 = 0) ∧
     (|finC9.scrollTop - max 0 (finC9.scrollH - finC9.clientH)| ≤ 1 →
        clampIndex cfg10 15 = (cfg10.planes : ℤ) - 1)) ∧
    (∃ N : ℕ, ∀ n : ℕ,
      ((frameStep cfg10 finC9)^[N + n] initState).centerIndex = clampIndex cfg10 15) :=
  ⟨⟨by decide, by decide, by decide, by decide, by decide, by decide, by decide,
    by decide, by decide, by decide, by decide, rfl, by decide, by decide⟩,
   goto_settles cfg10 initState finC9 15 (by decide) (by decide) (by decide)
     (by decide) (by decide) (by decide) (by decide) (by decide) (by decide)
     (by decide) (by decide) rfl (by decide) (by decide)⟩

end AxonStack
